import Mathlib

/-!
# FlappyDuck: a verification development of the simulation core

Shallow embedding of `src/js/bird.js`, `src/js/pipe.js`, `src/js/pipeManager.js`,
`src/js/collisionSystem.js`, `src/js/scoreSystem.js`, `src/js/gameStateManager.js`
and of the tick of `src/js/game.js`.

Conventions of the embedding.

* A JavaScript number is a rational (`ℚ`): arithmetic is exact, there is no
  rounding, no `NaN` and no `Infinity`.  `Math.PI` is the rational value of the
  double that JavaScript uses for it.
* A method that mutates `this` becomes a function returning the new object
  (together with the returned value, if any).
* `Math.random()` is an explicit argument: the draws a call consumes.
* Image handles, the canvas context, the DOM, audio playback and logging are
  not part of the state; they are written to only and never read back by the
  simulation.
-/

namespace FlappyDuck

/-! ## Numbers -/

/-- The value of JavaScript `Math.PI`: the double `0x400921FB54442D18`. -/
def MathPI : ℚ := 884279719003555 / 281474976710656

/-- JavaScript `v || d` on an optional numeric configuration field: the default
is taken when the field is absent or is `0`. -/
def orDefault (v : Option ℚ) (d : ℚ) : ℚ :=
  match v with
  | some q => if q = 0 then d else q
  | none => d

/-! ## Bird (`src/js/bird.js`) -/

/-- The object returned by `Bird.getBounds`; also the shape of one half of
`Pipe.getBounds`. -/
structure Bounds where
  left : ℚ
  right : ℚ
  top : ℚ
  bottom : ℚ
deriving DecidableEq

/-- The `config` argument of the `Bird` constructor. -/
structure BirdConfig where
  width : Option ℚ
  height : Option ℚ
  gravity : Option ℚ
  jumpForce : Option ℚ

/-- Fields of a `Bird` object (`images` is kept as its length, `totalFrames`). -/
structure Bird where
  x : ℚ
  y : ℚ
  width : ℚ
  height : ℚ
  velocity : ℚ
  gravity : ℚ
  jumpForce : ℚ
  rotation : ℚ
  maxRotation : ℚ
  minRotation : ℚ
  frame : Nat
  animTimer : ℚ
  animInterval : ℚ
  totalFrames : Nat
deriving DecidableEq

/-- Constructor `new Bird(x, y, images, config)`, bird.js 12-35; `images` is `none` when
the array is missing. -/
def Bird.new (x y : ℚ) (images : Option Nat) (config : BirdConfig) : Bird where
  x := x
  y := y
  width := orDefault config.width 40
  height := orDefault config.height 30
  velocity := 0
  gravity := orDefault config.gravity 1200
  jumpForce := orDefault config.jumpForce (-400)
  rotation := 0
  maxRotation := MathPI / 4
  minRotation := -MathPI / 4
  frame := 0
  animTimer := 0
  animInterval := 1 / 5
  totalFrames := images.getD 0

/-- Method `Bird.update(deltaTime)`, bird.js 41-57. -/
def Bird.update (b : Bird) (deltaTime : ℚ) : Bird :=
  let velocity := b.velocity + b.gravity * deltaTime
  let y := b.y + velocity * deltaTime
  let rotation := min b.maxRotation (max b.minRotation (velocity / 600))
  let b1 : Bird := { b with velocity := velocity, y := y, rotation := rotation }
  if b1.totalFrames > 1 then
    let animTimer := b1.animTimer + deltaTime
    if animTimer ≥ b1.animInterval then
      { b1 with frame := (b1.frame + 1) % b1.totalFrames, animTimer := 0 }
    else
      { b1 with animTimer := animTimer }
  else
    b1

/-- Method `Bird.jump()`, bird.js 63-66: the new bird and the returned
`shouldPlaySound`. -/
def Bird.jump (b : Bird) : Bird × Bool :=
  ({ b with velocity := b.jumpForce }, true)

/-- Method `Bird.getBounds()`, bird.js 115-122. -/
def Bird.getBounds (b : Bird) : Bounds where
  left := b.x - b.width / 2
  right := b.x + b.width / 2
  top := b.y - b.height / 2
  bottom := b.y + b.height / 2

/-- Method `Bird.reset(x, y)`, bird.js 129-136. -/
def Bird.reset (b : Bird) (x y : ℚ) : Bird :=
  { b with x := x, y := y, velocity := 0, rotation := 0, frame := 0, animTimer := 0 }

/-! ## Pipe (`src/js/pipe.js`) -/

/-- Fields of a `Pipe` object; `adImage` is the index of the chosen ad image. -/
structure Pipe where
  x : ℚ
  width : ℚ
  gapY : ℚ
  gapHeight : ℚ
  adImage : Option Nat
  pipeNumber : Nat
  scored : Bool
deriving DecidableEq

/-- Constructor `new Pipe(x, gapY, gapHeight, width, images, adImage, pipeNumber)`,
pipe.js 15-32. -/
def Pipe.new (x gapY gapHeight : ℚ) (width : Option ℚ) (adImage : Option Nat)
    (pipeNumber : Nat) : Pipe where
  x := x
  width := orDefault width 60
  gapY := gapY
  gapHeight := gapHeight
  adImage := adImage
  pipeNumber := pipeNumber
  scored := false

/-- Method `Pipe.update(speed, deltaTime)`, pipe.js 39-42. -/
def Pipe.update (p : Pipe) (speed deltaTime : ℚ) : Pipe :=
  { p with x := p.x - speed * deltaTime }

/-- Method `Pipe.isOffScreen()`, pipe.js 48-50. -/
def Pipe.isOffScreen (p : Pipe) : Bool :=
  decide (p.x + p.width < 0)

/-- The two boxes returned by `Pipe.getBounds()`, pipe.js 141-158; the bottom
edge of the lower box is `Infinity` in the source and is never read, so it is
`none` here. -/
structure PipeBounds where
  topLeft : ℚ
  topRight : ℚ
  topTop : ℚ
  topBottom : ℚ
  bottomLeft : ℚ
  bottomRight : ℚ
  bottomTop : ℚ
  bottomBottom : Option ℚ

/-- Method `Pipe.getBounds()`, pipe.js 141-158. -/
def Pipe.getBounds (p : Pipe) : PipeBounds where
  topLeft := p.x
  topRight := p.x + p.width
  topTop := 0
  topBottom := p.gapY
  bottomLeft := p.x
  bottomRight := p.x + p.width
  bottomTop := p.gapY + p.gapHeight
  bottomBottom := none

/-! ## PipeManager (`src/js/pipeManager.js`) -/

/-- The `config` argument of the `PipeManager` constructor. -/
structure PipeConfig where
  pipeWidth : Option ℚ
  pipeGap : Option ℚ
  pipeSpawnInterval : Option ℚ
  pipeSpeed : Option ℚ

/-- Fields of a `PipeManager` object; `adImages` is kept as its length. -/
structure PipeManager where
  canvasWidth : ℚ
  canvasHeight : ℚ
  groundHeight : ℚ
  pipeWidth : ℚ
  pipeGap : ℚ
  pipeSpawnInterval : ℚ
  pipeSpeed : ℚ
  minGapY : ℚ
  maxGapY : ℚ
  adImages : Nat
  adFrequency : List Nat
  pipes : List Pipe
  timer : ℚ
  pipeCount : Nat
deriving DecidableEq

/-- The values `Math.random()` returns to one `createPipe` call: the first
draw places the gap, the second (read only when an ad is due) picks the ad. -/
structure Draws where
  gap : ℚ
  ad : ℚ

/-- Constructor `new PipeManager(canvasWidth, canvasHeight, groundHeight, config, images,
adImages)`, pipeManager.js 14-41. -/
def PipeManager.new (canvasWidth canvasHeight groundHeight : ℚ) (config : PipeConfig)
    (adImages : Nat) : PipeManager where
  canvasWidth := canvasWidth
  canvasHeight := canvasHeight
  groundHeight := groundHeight
  pipeWidth := orDefault config.pipeWidth 60
  pipeGap := orDefault config.pipeGap 160
  pipeSpawnInterval := orDefault config.pipeSpawnInterval (3 / 2)
  pipeSpeed := orDefault config.pipeSpeed 200
  minGapY := 80
  maxGapY := canvasHeight - orDefault config.pipeGap 160 - groundHeight - 80
  adImages := adImages
  adFrequency := [3, 5, 7, 9, 12, 15]
  pipes := []
  timer := 0
  pipeCount := 0

/-- Method `PipeManager.createPipe()`, pipeManager.js 46-75. -/
def PipeManager.createPipe (m : PipeManager) (rnd : Draws) : PipeManager :=
  let gapY := rnd.gap * (m.maxGapY - m.minGapY) + m.minGapY
  let pipeCount := m.pipeCount + 1
  let adImage : Option Nat :=
    if m.adImages > 0 ∧ pipeCount ∈ m.adFrequency then
      let randomAdIndex : ℤ := Int.floor (rnd.ad * (m.adImages : ℚ))
      if 0 ≤ randomAdIndex ∧ randomAdIndex < (m.adImages : ℤ) then
        some randomAdIndex.toNat
      else none
    else none
  let pipe := Pipe.new m.canvasWidth gapY m.pipeGap (some m.pipeWidth) adImage pipeCount
  { m with pipeCount := pipeCount, pipes := m.pipes ++ [pipe] }

/-- Method `PipeManager.update(deltaTime)`, pipeManager.js 81-98. -/
def PipeManager.update (m : PipeManager) (deltaTime : ℚ) (rnd : Draws) : PipeManager :=
  let m1 : PipeManager := { m with timer := m.timer + deltaTime }
  let m2 : PipeManager :=
    if m1.timer ≥ m1.pipeSpawnInterval then
      { m1.createPipe rnd with timer := 0 }
    else m1
  let m3 : PipeManager :=
    { m2 with pipes := m2.pipes.map (fun pipe => pipe.update m2.pipeSpeed deltaTime) }
  { m3 with pipes := m3.pipes.filter (fun pipe => !pipe.isOffScreen) }

/-- The `for` loop of `PipeManager.checkCollision`, pipeManager.js 117-132:
`true` at the first pipe that is hit. -/
def PipeManager.checkCollisionLoop (birdBounds : Bounds) : List Pipe → Bool
  | [] => false
  | pipe :: rest =>
    let pipeBounds := pipe.getBounds
    if birdBounds.right > pipeBounds.topLeft ∧ birdBounds.left < pipeBounds.topRight then
      if birdBounds.top < pipeBounds.topBottom then true
      else if birdBounds.bottom > pipeBounds.bottomTop then true
      else PipeManager.checkCollisionLoop birdBounds rest
    else PipeManager.checkCollisionLoop birdBounds rest

/-- Method `PipeManager.checkCollision(birdBounds)`, pipeManager.js 116-135. -/
def PipeManager.checkCollision (m : PipeManager) (birdBounds : Bounds) : Bool :=
  PipeManager.checkCollisionLoop birdBounds m.pipes

/-- The `for` loop of `PipeManager.checkScoring`, pipeManager.js 145-151, run
with the local `score` at the given value: the pipes after the loop and the
final `score`. -/
def PipeManager.checkScoringLoop (birdBounds : Bounds) : List Pipe → Nat → List Pipe × Nat
  | [], score => ([], score)
  | pipe :: rest, score =>
    if !pipe.scored && decide (pipe.x + pipe.width < birdBounds.left) then
      let r := PipeManager.checkScoringLoop birdBounds rest (score + 1)
      ({ pipe with scored := true } :: r.1, r.2)
    else
      let r := PipeManager.checkScoringLoop birdBounds rest score
      (pipe :: r.1, r.2)

/-- Method `PipeManager.checkScoring(birdBounds)`, pipeManager.js 142-154: the
returned score and the manager after the call. -/
def PipeManager.checkScoring (m : PipeManager) (birdBounds : Bounds) : Nat × PipeManager :=
  let r := PipeManager.checkScoringLoop birdBounds m.pipes 0
  (r.2, { m with pipes := r.1 })

/-- Method `PipeManager.reset()`, pipeManager.js 159-163. -/
def PipeManager.reset (m : PipeManager) : PipeManager :=
  { m with pipes := [], timer := 0, pipeCount := 0 }

/-- Method `PipeManager.resize(canvasWidth, canvasHeight)`, pipeManager.js 170-174. -/
def PipeManager.resize (m : PipeManager) (canvasWidth canvasHeight : ℚ) : PipeManager :=
  { m with
    canvasWidth := canvasWidth
    canvasHeight := canvasHeight
    maxGapY := canvasHeight - m.pipeGap - m.groundHeight - 80 }

/-! ## CollisionSystem (`src/js/collisionSystem.js`) -/

/-- The `type` field of a collision object. -/
inductive CollisionType where
  | ground
  | ceiling
  | pipe_top
  | pipe_bottom
deriving DecidableEq

/-- The `point` field of a collision object. -/
structure Point where
  x : ℚ
  y : ℚ
deriving DecidableEq

/-- A collision object `{ type, point, pipe }` (`pipe` only on pipe hits). -/
structure Collision where
  type : CollisionType
  point : Point
  pipe : Option Pipe
deriving DecidableEq

/-- Fields of a `CollisionSystem` object. -/
structure CollisionSystem where
  groundHeight : ℚ
  debug : Bool
  isShowingCollision : Bool
  collisionEffectDuration : ℚ
  collisionEffectTimer : ℚ
  lastCollisionPoint : Option Point
deriving DecidableEq

/-- Constructor `new CollisionSystem(gameConfig)`, collisionSystem.js 9-18. -/
def CollisionSystem.new (groundHeight : Option ℚ) : CollisionSystem where
  groundHeight := orDefault groundHeight 0
  debug := false
  isShowingCollision := false
  collisionEffectDuration := 3 / 10
  collisionEffectTimer := 0
  lastCollisionPoint := none

/-- Method `CollisionSystem.checkGroundCollision(birdBounds, canvasHeight)`,
collisionSystem.js 43-56. -/
def CollisionSystem.checkGroundCollision (cs : CollisionSystem) (birdBounds : Bounds)
    (canvasHeight : ℚ) : Option Collision :=
  if birdBounds.bottom > canvasHeight - cs.groundHeight then
    some
      { type := CollisionType.ground
        point :=
          { x := birdBounds.left + (birdBounds.right - birdBounds.left) / 2
            y := canvasHeight - cs.groundHeight }
        pipe := none }
  else none

/-- Method `CollisionSystem.checkCeilingCollision(birdBounds)`,
collisionSystem.js 63-76. -/
def CollisionSystem.checkCeilingCollision (_cs : CollisionSystem) (birdBounds : Bounds) :
    Option Collision :=
  if birdBounds.top < 0 then
    some
      { type := CollisionType.ceiling
        point :=
          { x := birdBounds.left + (birdBounds.right - birdBounds.left) / 2
            y := 0 }
        pipe := none }
  else none

/-- The `for` loop of `CollisionSystem.checkPipeCollision`,
collisionSystem.js 85-114: the collision object of the first pipe that is
hit. -/
def CollisionSystem.checkPipeCollisionLoop (birdBounds : Bounds) : List Pipe → Option Collision
  | [] => none
  | pipe :: rest =>
    let pipeBounds := pipe.getBounds
    if birdBounds.right > pipeBounds.topLeft ∧ birdBounds.left < pipeBounds.topRight then
      if birdBounds.top < pipeBounds.topBottom then
        some
          { type := CollisionType.pipe_top
            point := { x := max birdBounds.left pipeBounds.topLeft, y := pipeBounds.topBottom }
            pipe := some pipe }
      else if birdBounds.bottom > pipeBounds.bottomTop then
        some
          { type := CollisionType.pipe_bottom
            point := { x := max birdBounds.left pipeBounds.bottomLeft, y := pipeBounds.bottomTop }
            pipe := some pipe }
      else CollisionSystem.checkPipeCollisionLoop birdBounds rest
    else CollisionSystem.checkPipeCollisionLoop birdBounds rest

/-- Method `CollisionSystem.checkPipeCollision(birdBounds, pipeManager)`,
collisionSystem.js 84-117. -/
def CollisionSystem.checkPipeCollision (_cs : CollisionSystem) (birdBounds : Bounds)
    (pipeManager : PipeManager) : Option Collision :=
  CollisionSystem.checkPipeCollisionLoop birdBounds pipeManager.pipes

/-- Method `CollisionSystem.checkCollisions(bird, pipeManager, canvasHeight)`,
collisionSystem.js 126-153: the returned collision object (`none` for `null`)
and the bird after the call. -/
def CollisionSystem.checkCollisions (cs : CollisionSystem) (bird : Bird)
    (pipeManager : PipeManager) (canvasHeight : ℚ) : Option Collision × Bird :=
  let birdBounds := bird.getBounds
  match cs.checkGroundCollision birdBounds canvasHeight with
  | some groundCollision => (some groundCollision, bird)
  | none =>
    match cs.checkPipeCollision birdBounds pipeManager with
    | some pipeCollision => (some pipeCollision, bird)
    | none =>
      match cs.checkCeilingCollision birdBounds with
      | some _ => (none, { bird with y := bird.height / 2, velocity := 0 })
      | none => (none, bird)

/-- Method `CollisionSystem.startCollisionEffect(collisionInfo)`,
collisionSystem.js 174-178. -/
def CollisionSystem.startCollisionEffect (cs : CollisionSystem) (collisionInfo : Collision) :
    CollisionSystem :=
  { cs with
    isShowingCollision := true
    collisionEffectTimer := cs.collisionEffectDuration
    lastCollisionPoint := some collisionInfo.point }

/-! ## ScoreSystem (`src/js/scoreSystem.js`) -/

/-- Fields of a `ScoreSystem` object, together with the `localStorage` item
`flappyBirdHighScore` it reads and writes (`none` when the item is absent). -/
structure ScoreSystem where
  score : ℤ
  highScore : ℤ
  storage : Option ℤ
  scoreAnimationActive : Bool
  scoreAnimationDuration : ℚ
  scoreAnimationTimer : ℚ
  scoreAnimationScale : ℚ
deriving DecidableEq

/-- Method `ScoreSystem.loadHighScore()`, scoreSystem.js 131-134. -/
def ScoreSystem.loadHighScore (storage : Option ℤ) : ℤ :=
  match storage with
  | some savedScore => savedScore
  | none => 0

/-- Constructor `new ScoreSystem(...)`, scoreSystem.js 11-28. -/
def ScoreSystem.new (storage : Option ℤ) : ScoreSystem where
  score := 0
  highScore := ScoreSystem.loadHighScore storage
  storage := storage
  scoreAnimationActive := false
  scoreAnimationDuration := 1 / 2
  scoreAnimationTimer := 0
  scoreAnimationScale := 1

/-- Method `ScoreSystem.startScoreAnimation()`, scoreSystem.js 55-59. -/
def ScoreSystem.startScoreAnimation (s : ScoreSystem) : ScoreSystem :=
  { s with
    scoreAnimationActive := true
    scoreAnimationTimer := s.scoreAnimationDuration
    scoreAnimationScale := 3 / 2 }

/-- Method `ScoreSystem.addScore(points)`, scoreSystem.js 35-42. -/
def ScoreSystem.addScore (s : ScoreSystem) (points : ℤ) : Bool × ScoreSystem :=
  if points ≤ 0 then (false, s)
  else (true, ({ s with score := s.score + points } : ScoreSystem).startScoreAnimation)

/-- Method `ScoreSystem.reset()`, scoreSystem.js 47-50. -/
def ScoreSystem.reset (s : ScoreSystem) : ScoreSystem :=
  { s with score := 0 }

/-- Method `ScoreSystem.updateAnimation(deltaTime)`, scoreSystem.js 65-84. -/
def ScoreSystem.updateAnimation (s : ScoreSystem) (deltaTime : ℚ) : ScoreSystem :=
  if !s.scoreAnimationActive then s
  else
    let timer := s.scoreAnimationTimer - deltaTime
    let progress := 1 - timer / s.scoreAnimationDuration
    let s1 : ScoreSystem :=
      { s with scoreAnimationTimer := timer, scoreAnimationScale := 3 / 2 - 1 / 2 * progress }
    if timer ≤ 0 then { s1 with scoreAnimationActive := false } else s1

/-- Method `ScoreSystem.saveHighScore(score)`, scoreSystem.js 140-142. -/
def ScoreSystem.saveHighScore (s : ScoreSystem) (score : ℤ) : ScoreSystem :=
  { s with storage := some score }

/-- Method `ScoreSystem.finalizeScore()`, scoreSystem.js 106-125. -/
def ScoreSystem.finalizeScore (s : ScoreSystem) : Bool × ScoreSystem :=
  let isNewHighScore := decide (s.score > s.highScore)
  if isNewHighScore then
    let s1 : ScoreSystem := { s with highScore := s.score }
    (isNewHighScore, s1.saveHighScore s1.highScore)
  else (isNewHighScore, s)

/-! ## GameStateManager (`src/js/gameStateManager.js`) -/

/-- The keys of `GameStateManager.State`. -/
inductive State where
  | LOADING
  | START
  | PLAYING
  | PAUSED
  | GAME_OVER
deriving DecidableEq

/-- The string value of each key of `GameStateManager.State`,
gameStateManager.js 8-14. -/
def State.value : State → String
  | State.LOADING => "loading"
  | State.START => "start"
  | State.PLAYING => "playing"
  | State.PAUSED => "paused"
  | State.GAME_OVER => "gameOver"

/-- The list `Object.values(GameStateManager.State)`. -/
def State.values : List State :=
  [State.LOADING, State.START, State.PLAYING, State.PAUSED, State.GAME_OVER]

/-- The key whose value is the requested string, if
`Object.values(GameStateManager.State).includes(newState)`. -/
def State.ofValue (newState : String) : Option State :=
  State.values.find? (fun s => s.value == newState)

/-- The side-effecting calls `changeState` makes, in the order it makes them. -/
inductive Effect where
  | exit (oldState : State)
  | enter (newState : State)
  | callback (newState oldState : State)
  | event (oldState newState : State)
deriving DecidableEq

/-- Fields of a `GameStateManager` object.  `hasCallback` is
`typeof this.onStateChange === 'function'`; `log` is the history of the
side-effecting calls made so far, each with whether it threw. -/
structure GameStateManager where
  currentState : State
  previousState : Option State
  hasCallback : Bool
  log : List (Effect × Bool)
deriving DecidableEq

/-- Constructor `new GameStateManager(screens, onStateChange)`, gameStateManager.js 21-69. -/
def GameStateManager.new (hasCallback : Bool) : GameStateManager where
  currentState := State.LOADING
  previousState := none
  hasCallback := hasCallback
  log := []

/-- Method `GameStateManager.getState()`, gameStateManager.js 75-77. -/
def GameStateManager.getState (sm : GameStateManager) : State :=
  sm.currentState

/-- Method `GameStateManager.isState(state)`, gameStateManager.js 84-86. -/
def GameStateManager.isState (sm : GameStateManager) (state : State) : Bool :=
  decide (sm.currentState = state)

/-- One guarded side-effecting call (`try { ... } catch { log }`): the call is
recorded with its outcome and control continues either way. -/
def GameStateManager.attempt (sm : GameStateManager) (throws : Effect → Bool) (e : Effect) :
    GameStateManager :=
  { sm with log := sm.log ++ [(e, throws e)] }

/-- Method `GameStateManager.changeState(newState)`, gameStateManager.js 93-209.
`throws` tells which of the side-effecting calls raise an exception. -/
def GameStateManager.changeState (sm : GameStateManager) (newState : String)
    (throws : Effect → Bool) : Bool × GameStateManager :=
  match State.ofValue newState with
  | none => (false, sm)
  | some newState =>
    let oldState := sm.currentState
    if oldState = newState then (true, sm)
    else
      let sm1 : GameStateManager := { sm with previousState := some oldState }
      let sm2 := sm1.attempt throws (Effect.exit oldState)
      let sm3 : GameStateManager := { sm2 with currentState := newState }
      let sm4 := sm3.attempt throws (Effect.enter newState)
      let sm5 :=
        if sm4.hasCallback then sm4.attempt throws (Effect.callback newState oldState)
        else sm4
      let sm6 := sm5.attempt throws (Effect.event oldState newState)
      (true, sm6)

/-! ## FlappyBirdGame (`src/js/game.js`): the tick -/

/-- The part of a `FlappyBirdGame` object the tick reads and writes.  The
background manager, the audio manager and the frame loop are driven by the tick
but never read back by it. -/
structure FlappyBirdGame where
  canvasWidth : ℚ
  canvasHeight : ℚ
  stateManager : GameStateManager
  scoreSystem : ScoreSystem
  bird : Bird
  pipeManager : PipeManager
  collisionSystem : CollisionSystem
deriving DecidableEq

/-- Method `FlappyBirdGame.gameOver()`, game.js 1234-1246 (the two audio calls
that end it are left out). -/
def FlappyBirdGame.gameOver (g : FlappyBirdGame) (throws : Effect → Bool) : FlappyBirdGame :=
  let g1 : FlappyBirdGame :=
    { g with stateManager := (g.stateManager.changeState State.GAME_OVER.value throws).2 }
  { g1 with scoreSystem := g1.scoreSystem.finalizeScore.2 }

/-- Method `FlappyBirdGame.updateBird(deltaTime)`, game.js 1091-1094. -/
def FlappyBirdGame.updateBird (g : FlappyBirdGame) (deltaTime : ℚ) : FlappyBirdGame :=
  { g with bird := g.bird.update deltaTime }

/-- Method `FlappyBirdGame.updatePipes(deltaTime)`, game.js 1100-1103. -/
def FlappyBirdGame.updatePipes (g : FlappyBirdGame) (deltaTime : ℚ) (rnd : Draws) :
    FlappyBirdGame :=
  { g with pipeManager := g.pipeManager.update deltaTime rnd }

/-- Method `FlappyBirdGame.checkCollisions()`, game.js 1108-1124: the returned flag
and the game after the call. -/
def FlappyBirdGame.checkCollisions (g : FlappyBirdGame) (throws : Effect → Bool) :
    Bool × FlappyBirdGame :=
  let r := g.collisionSystem.checkCollisions g.bird g.pipeManager g.canvasHeight
  let g1 : FlappyBirdGame := { g with bird := r.2 }
  match r.1 with
  | some collision =>
    let g2 : FlappyBirdGame :=
      { g1 with collisionSystem := g1.collisionSystem.startCollisionEffect collision }
    (true, g2.gameOver throws)
  | none => (false, g1)

/-- Method `FlappyBirdGame.updateScoring()`, game.js 1129-1143 (the score sound
is left out). -/
def FlappyBirdGame.updateScoring (g : FlappyBirdGame) : FlappyBirdGame :=
  let birdBounds := g.bird.getBounds
  let r := g.pipeManager.checkScoring birdBounds
  let scoreGained := r.1
  let g1 : FlappyBirdGame := { g with pipeManager := r.2 }
  if scoreGained > 0 then
    { g1 with scoreSystem := (g1.scoreSystem.addScore (scoreGained : ℤ)).2 }
  else g1

/-- Method `FlappyBirdGame.update(deltaTime, fps)`, game.js 1065-1085.  The call
`backgroundManager.update(deltaTime)` between the pipe update and the collision
check scrolls the background only and is left out. -/
def FlappyBirdGame.update (g : FlappyBirdGame) (deltaTime : ℚ) (rnd : Draws)
    (throws : Effect → Bool) : FlappyBirdGame :=
  if !g.stateManager.isState State.PLAYING then g
  else
    let g1 := g.updateBird deltaTime
    let g2 := g1.updatePipes deltaTime rnd
    let g3 := (g2.checkCollisions throws).2
    let g4 := g3.updateScoring
    { g4 with scoreSystem := g4.scoreSystem.updateAnimation deltaTime }

/-! ## Notions used in the statements -/

/-- The overlap test `checkPipeCollision` applies to one pipe. -/
def hitsPipe (bb : Bounds) (p : Pipe) : Prop :=
  bb.right > p.x ∧ bb.left < p.x + p.width ∧ (bb.top < p.gapY ∨ bb.bottom > p.gapY + p.gapHeight)

instance (bb : Bounds) (p : Pipe) : Decidable (hitsPipe bb p) := by
  unfold hitsPipe; infer_instance

/-- The ground test of `checkGroundCollision`. -/
def hitsGround (cs : CollisionSystem) (bb : Bounds) (canvasHeight : ℚ) : Prop :=
  bb.bottom > canvasHeight - cs.groundHeight

instance (cs : CollisionSystem) (bb : Bounds) (canvasHeight : ℚ) :
    Decidable (hitsGround cs bb canvasHeight) := by
  unfold hitsGround; infer_instance

/-- The configuration the game passes to `new Bird`, game.js 679-684. -/
def gameBirdConfig : BirdConfig where
  width := some 40
  height := some 30
  gravity := some 1200
  jumpForce := some (-400)

/-- The configuration the game passes to `new PipeManager`, game.js 745-750. -/
def gamePipeConfig : PipeConfig where
  pipeWidth := some 60
  pipeGap := some 160
  pipeSpawnInterval := some (3 / 2)
  pipeSpeed := some 180

/-- The collision system of the game, game.js 265-267. -/
def gameCollisionSystem : CollisionSystem :=
  CollisionSystem.new (some 50)

/-- The game bird on a 450 by 640 canvas, moved to height `y`. -/
def birdAt (y : ℚ) : Bird :=
  Bird.new 150 y (some 3) gameBirdConfig

/-- The game pipe manager on a 450 by 640 canvas holding the given pipes. -/
def managerWith (pipes : List Pipe) : PipeManager :=
  { PipeManager.new 450 640 50 gamePipeConfig 0 with pipes := pipes, pipeCount := pipes.length }

/-- A pipe of the game at horizontal position `x` with its gap starting at
`gapY`, carrying sequence number `n`. -/
def pipeAt (x gapY : ℚ) (n : Nat) : Pipe :=
  Pipe.new x gapY 160 (some 60) none n

/-- A game on a 450 by 640 canvas in state Playing, with the bird at height
`y` and the given live pipes. -/
def gameAt (y : ℚ) (pipes : List Pipe) : FlappyBirdGame where
  canvasWidth := 450
  canvasHeight := 640
  stateManager :=
    { GameStateManager.new true with
      currentState := State.PLAYING
      previousState := some State.START }
  scoreSystem := ScoreSystem.new none
  bird := birdAt y
  pipeManager := managerWith pipes
  collisionSystem := gameCollisionSystem

/-- Draws that put the gap in the middle of its range. -/
def midDraws : Draws where
  gap := 1 / 2
  ad := 0

/-- No side-effecting call of `changeState` throws. -/
def noThrow : Effect → Bool := fun _ => false

/-- Every enter and exit action throws. -/
def actionsThrow : Effect → Bool
  | Effect.exit _ => true
  | Effect.enter _ => true
  | _ => false

/-- One call made on the pipe manager during a run: `update(deltaTime)` with
the draws it consumes, or `checkScoring` with the bird bounds of the run. -/
inductive ManagerCall where
  | update (deltaTime : ℚ) (rnd : Draws)
  | checkScoring

/-- The manager after one call of a run with bird bounds `b`. -/
def PipeManager.call (b : Bounds) (m : PipeManager) : ManagerCall → PipeManager
  | ManagerCall.update deltaTime rnd => m.update deltaTime rnd
  | ManagerCall.checkScoring => (m.checkScoring b).2

/-- The manager after a sequence of calls of a run with bird bounds `b`. -/
def PipeManager.calls (b : Bounds) (m : PipeManager) (cs : List ManagerCall) : PipeManager :=
  cs.foldl (PipeManager.call b) m

/-- What the pipe with sequence number `k` adds to the result of
`checkScoring(b)`: the result of the call minus the result the same call gives
when that pipe is taken out of the live list. -/
def PipeManager.shareOf (m : PipeManager) (k : Nat) (b : Bounds) : Nat :=
  (m.checkScoring b).1 -
    (({ m with pipes := m.pipes.filter (fun p => p.pipeNumber ≠ k) } : PipeManager).checkScoring b).1

/-- The sum, over the `checkScoring` calls of a sequence of calls, of what the
pipe with sequence number `k` adds to their results. -/
def PipeManager.totalShare (k : Nat) (b : Bounds) : PipeManager → List ManagerCall → Nat
  | _, [] => 0
  | m, ManagerCall.update deltaTime rnd :: rest =>
    PipeManager.totalShare k b (m.update deltaTime rnd) rest
  | m, ManagerCall.checkScoring :: rest =>
    m.shareOf k b + PipeManager.totalShare k b (m.checkScoring b).2 rest

/-- The live pipes carry distinct sequence numbers, none above the spawn
counter: the numbering every manager has after construction or `reset`, and
keeps under `update`, `checkScoring` and `resize`. -/
def PipeManager.numbered (m : PipeManager) : Prop :=
  (m.pipes.map (fun p => p.pipeNumber)).Nodup ∧ ∀ p ∈ m.pipes, p.pipeNumber ≤ m.pipeCount

instance (m : PipeManager) : Decidable m.numbered := by
  unfold PipeManager.numbered; infer_instance

/-- Pipe number `k` has been handed out and, if it is still live, is scored. -/
def PipeManager.settled (m : PipeManager) (k : Nat) : Prop :=
  k ≤ m.pipeCount ∧ ∀ p ∈ m.pipes, p.pipeNumber = k → p.scored = true

instance (m : PipeManager) (k : Nat) : Decidable (m.settled k) := by
  unfold PipeManager.settled; infer_instance

/-- Pipe number `k` is not scored (it is live and unscored, gone, or still to
be spawned). -/
def PipeManager.unscored (m : PipeManager) (k : Nat) : Prop :=
  ∀ p ∈ m.pipes, p.pipeNumber = k → p.scored = false

instance (m : PipeManager) (k : Nat) : Decidable (m.unscored k) := by
  unfold PipeManager.unscored; infer_instance

/-- The rotation the specification derives from a velocity:
`clamp(velocity/600, -π/4, π/4)`, with `Math.PI` for π. -/
def clampRotation (velocity : ℚ) : ℚ :=
  min (MathPI / 4) (max (-MathPI / 4) (velocity / 600))

/-- One operation applied to the bird during a run: `update(deltaTime)`,
`jump()`, `reset(x, y)`, or a call of `CollisionSystem.checkCollisions` on it
(which performs the ceiling clamp). -/
inductive BirdCall where
  | update (deltaTime : ℚ)
  | jump
  | reset (x y : ℚ)
  | checkCollisions (cs : CollisionSystem) (pipeManager : PipeManager) (canvasHeight : ℚ)

/-- The bird after one operation. -/
def Bird.call (b : Bird) : BirdCall → Bird
  | BirdCall.update deltaTime => b.update deltaTime
  | BirdCall.jump => b.jump.1
  | BirdCall.reset x y => b.reset x y
  | BirdCall.checkCollisions cs pipeManager canvasHeight =>
    (cs.checkCollisions b pipeManager canvasHeight).2

/-- The bird after a sequence of operations. -/
def Bird.calls (b : Bird) (cs : List BirdCall) : Bird :=
  cs.foldl Bird.call b

/-- A state manager with a registered callback, put in state `s`. -/
def managerIn (s : State) : GameStateManager :=
  { GameStateManager.new true with currentState := s }

/-- Every side-effecting call of `changeState` throws. -/
def allThrow : Effect → Bool := fun _ => true

/-- One call made on the score system. -/
inductive ScoreCall where
  | addScore (points : ℤ)
  | reset
  | finalizeScore

/-- The score system after one call. -/
def ScoreSystem.call (s : ScoreSystem) : ScoreCall → ScoreSystem
  | ScoreCall.addScore points => (s.addScore points).2
  | ScoreCall.reset => s.reset
  | ScoreCall.finalizeScore => s.finalizeScore.2

/-- The score system after a sequence of calls. -/
def ScoreSystem.calls (s : ScoreSystem) (cs : List ScoreCall) : ScoreSystem :=
  cs.foldl ScoreSystem.call s

/-- The call is not `reset`. -/
def ScoreCall.keepsRun : ScoreCall → Bool
  | ScoreCall.reset => false
  | _ => true

/-! ## FlappyBirdGame (`src/js/game.js`): start, pause, resume, restart -/

/-- Method `FlappyBirdGame.initGameObjects()`, game.js 668-820: a new bird at a
third of the canvas width and half its height and a new pipe manager, both from
`GameConfig` (the background manager and the fallback objects used when a class
is missing are left out). -/
def FlappyBirdGame.initGameObjects (g : FlappyBirdGame) : FlappyBirdGame :=
  { g with
    bird := Bird.new (g.canvasWidth / 3) (g.canvasHeight / 2) (some 3) gameBirdConfig
    pipeManager := PipeManager.new g.canvasWidth g.canvasHeight 50 gamePipeConfig 0 }

/-- Method `FlappyBirdGame.showStartScreen()`, game.js 843-942 (the drawing
calls are left out). -/
def FlappyBirdGame.showStartScreen (g : FlappyBirdGame) (throws : Effect → Bool) :
    FlappyBirdGame :=
  let g1 : FlappyBirdGame :=
    { g with stateManager := (g.stateManager.changeState State.START.value throws).2 }
  g1.initGameObjects

/-- The callback given to `AssetLoader.onComplete` in `loadAssets`,
game.js 629-647 (the audio registration and the audio control update are left
out). -/
def FlappyBirdGame.loadAssetsOnComplete (g : FlappyBirdGame) (throws : Effect → Bool) :
    FlappyBirdGame :=
  let g1 := g.initGameObjects
  let g2 : FlappyBirdGame :=
    { g1 with stateManager := (g1.stateManager.changeState State.START.value throws).2 }
  g2.showStartScreen throws

/-- Method `FlappyBirdGame.startGame()`, game.js 947-973 (the background music
is left out). -/
def FlappyBirdGame.startGame (g : FlappyBirdGame) (throws : Effect → Bool) : FlappyBirdGame :=
  let g1 : FlappyBirdGame :=
    { g with stateManager := (g.stateManager.changeState State.PLAYING.value throws).2 }
  let g2 : FlappyBirdGame := { g1 with scoreSystem := g1.scoreSystem.reset }
  let g3 := g2.initGameObjects
  { g3 with pipeManager := g3.pipeManager.reset }

/-- Method `FlappyBirdGame.pauseGame()`, game.js 978-991 (the background music
is left out). -/
def FlappyBirdGame.pauseGame (g : FlappyBirdGame) (throws : Effect → Bool) : FlappyBirdGame :=
  if g.stateManager.isState State.PLAYING then
    { g with stateManager := (g.stateManager.changeState State.PAUSED.value throws).2 }
  else g

/-- Method `FlappyBirdGame.resumeGame()`, game.js 1026-1041 (the background
music is left out). -/
def FlappyBirdGame.resumeGame (g : FlappyBirdGame) (throws : Effect → Bool) : FlappyBirdGame :=
  if g.stateManager.isState State.PAUSED then
    { g with stateManager := (g.stateManager.changeState State.PLAYING.value throws).2 }
  else g

/-- Method `FlappyBirdGame.resetGame()`, game.js 1046-1058. -/
def FlappyBirdGame.resetGame (g : FlappyBirdGame) (throws : Effect → Bool) : FlappyBirdGame :=
  let g1 : FlappyBirdGame := { g with scoreSystem := g.scoreSystem.reset }
  let g2 : FlappyBirdGame :=
    { g1 with bird := g1.bird.reset (g1.canvasWidth / 3) (g1.canvasHeight / 2) }
  g2.startGame throws

/-! ## GameLoop (`src/js/utils/gameLoop.js`) -/

/-- The state variables of the `GameLoop` module, gameLoop.js 6-11 (the
request id and the two callbacks are left out). -/
structure GameLoop where
  lastTime : ℚ
  frameCount : Nat
  fpsUpdateTime : ℚ
  fps : ℚ
  running : Bool
deriving DecidableEq

/-- The initial values of the state variables, gameLoop.js 6-11. -/
def GameLoop.initial : GameLoop where
  lastTime := 0
  frameCount := 0
  fpsUpdateTime := 0
  fps := 0
  running := false

/-- Function `calculateFPS(timestamp)`, gameLoop.js 22-37: the returned FPS and
the module state after the call. -/
def GameLoop.calculateFPS (gl : GameLoop) (timestamp : ℚ) : ℚ × GameLoop :=
  let gl1 : GameLoop := { gl with frameCount := gl.frameCount + 1 }
  if timestamp - gl1.fpsUpdateTime ≥ 1000 then
    let fps : ℚ := (gl1.frameCount : ℚ) * 1000 / (timestamp - gl1.fpsUpdateTime)
    (fps, { gl1 with fps := fps, fpsUpdateTime := timestamp, frameCount := 0 })
  else (gl1.fps, gl1)

/-- What one call of `loop` hands to the update callback. -/
structure Tick where
  deltaTime : ℚ
  fps : ℚ
deriving DecidableEq

/-- Function `loop(timestamp)`, gameLoop.js 43-65: the arguments of the update
callback and the module state after the call.  `_lastTime || timestamp` takes
`timestamp` when `_lastTime` is 0. -/
def GameLoop.loop (gl : GameLoop) (timestamp : ℚ) : Tick × GameLoop :=
  let deltaTime := timestamp - (if gl.lastTime = 0 then timestamp else gl.lastTime)
  let gl1 : GameLoop := { gl with lastTime := timestamp }
  let r := gl1.calculateFPS timestamp
  ({ deltaTime := deltaTime / 1000, fps := r.1 }, r.2)

/-- Function `start(updateCallback, renderCallback)`, gameLoop.js 72-90. -/
def GameLoop.start (gl : GameLoop) : GameLoop :=
  { gl with running := true, lastTime := 0, frameCount := 0, fpsUpdateTime := 0 }

/-- Function `stop()`, gameLoop.js 95-102. -/
def GameLoop.stop (gl : GameLoop) : GameLoop :=
  { gl with running := false }

/-- The `deltaTime` values (in seconds) handed to the update callback when the
browser delivers the given frame timestamps (in milliseconds) in order. -/
def GameLoop.deltas (gl : GameLoop) : List ℚ → List ℚ
  | [] => []
  | timestamp :: rest =>
    (gl.loop timestamp).1.deltaTime :: GameLoop.deltas (gl.loop timestamp).2 rest

/-! ## Further notions used in the statements -/

/-- The transition graph of the specification, section 4.5:
`Loading → Start → Playing ⇄ Paused`, `Playing → GameOver → Start`. -/
def specTransition : State → State → Bool
  | State.LOADING, State.START => true
  | State.START, State.PLAYING => true
  | State.PLAYING, State.PAUSED => true
  | State.PAUSED, State.PLAYING => true
  | State.PLAYING, State.GAME_OVER => true
  | State.GAME_OVER, State.START => true
  | _, _ => false

/-- The operations by which the game changes its state. -/
inductive GameOp where
  | loadAssetsOnComplete
  | startGame
  | pauseGame
  | resumeGame
  | update (deltaTime : ℚ) (rnd : Draws)
  | resetGame

/-- The game after one operation. -/
def FlappyBirdGame.perform (g : FlappyBirdGame) (throws : Effect → Bool) : GameOp → FlappyBirdGame
  | GameOp.loadAssetsOnComplete => g.loadAssetsOnComplete throws
  | GameOp.startGame => g.startGame throws
  | GameOp.pauseGame => g.pauseGame throws
  | GameOp.resumeGame => g.resumeGame throws
  | GameOp.update deltaTime rnd => g.update deltaTime rnd throws
  | GameOp.resetGame => g.resetGame throws

/-- A game on a 450 by 640 canvas in state `s`, as `gameAt 300 []` otherwise. -/
def gameIn (s : State) : FlappyBirdGame :=
  { gameAt 300 [] with stateManager := managerIn s }

/-- One call made on the pipe manager: `update`, `checkScoring`, `resize` or
`reset`. -/
inductive ManagerOp where
  | update (deltaTime : ℚ) (rnd : Draws)
  | checkScoring (birdBounds : Bounds)
  | resize (canvasWidth canvasHeight : ℚ)
  | reset

/-- The manager after one call. -/
def PipeManager.op (m : PipeManager) : ManagerOp → PipeManager
  | ManagerOp.update deltaTime rnd => m.update deltaTime rnd
  | ManagerOp.checkScoring birdBounds => (m.checkScoring birdBounds).2
  | ManagerOp.resize canvasWidth canvasHeight => m.resize canvasWidth canvasHeight
  | ManagerOp.reset => m.reset

/-- The manager after a sequence of calls. -/
def PipeManager.ops (m : PipeManager) (os : List ManagerOp) : PipeManager :=
  os.foldl PipeManager.op m

/-- The number of `createPipe` calls made by a sequence of calls since its
last `reset` (since its start when it has none), added to `n`. -/
def PipeManager.spawned : PipeManager → Nat → List ManagerOp → Nat
  | _, n, [] => n
  | m, n, ManagerOp.update deltaTime rnd :: rest =>
    PipeManager.spawned (m.update deltaTime rnd)
      (if m.timer + deltaTime ≥ m.pipeSpawnInterval then n + 1 else n) rest
  | m, n, ManagerOp.checkScoring birdBounds :: rest =>
    PipeManager.spawned (m.checkScoring birdBounds).2 n rest
  | m, n, ManagerOp.resize canvasWidth canvasHeight :: rest =>
    PipeManager.spawned (m.resize canvasWidth canvasHeight) n rest
  | m, _, ManagerOp.reset :: rest => PipeManager.spawned m.reset 0 rest

/-- Every `update` of the sequence has `deltaTime >= 0` and every `resize`
keeps the canvas at least as wide as the position of each live pipe (as any
`resize` that does not lower `canvasWidth` does). -/
def PipeManager.steady : PipeManager → List ManagerOp → Prop
  | _, [] => True
  | m, ManagerOp.update deltaTime rnd :: rest =>
    0 ≤ deltaTime ∧ PipeManager.steady (m.update deltaTime rnd) rest
  | m, ManagerOp.checkScoring birdBounds :: rest =>
    PipeManager.steady (m.checkScoring birdBounds).2 rest
  | m, ManagerOp.resize canvasWidth canvasHeight :: rest =>
    (∀ p ∈ m.pipes, p.x ≤ canvasWidth) ∧
      PipeManager.steady (m.resize canvasWidth canvasHeight) rest
  | m, ManagerOp.reset :: rest => PipeManager.steady m.reset rest

/-- The call is an `update` with a negative `deltaTime`. -/
def ManagerCall.backwards : ManagerCall → Bool
  | ManagerCall.update deltaTime _ => decide (deltaTime < 0)
  | ManagerCall.checkScoring => false

/-- A game in Playing on the 450 by 640 canvas: the bird (left edge 130) is in
the gap of the only pipe, falling at 900 px/s; the pipe (right edge 140) has
not passed yet and is unscored; score and high score are 0. -/
def lateScoreGame : FlappyBirdGame :=
  { gameAt 480 [pipeAt 80 340 1] with bird := { birdAt 480 with velocity := 900 } }

/-- The bounds of a 40 by 30 bird at (400, 337): left edge 380. -/
def wideBounds : Bounds where
  left := 380
  right := 420
  top := 322
  bottom := 352

/-- The game pipe manager on a 1200 by 675 canvas after two ticks of 1.5 s and
a frame hitch of 3.5 s. -/
def managerAfterHitch : PipeManager :=
  (PipeManager.new 1200 675 50 gamePipeConfig 0).calls wideBounds
    [ManagerCall.update (3 / 2) midDraws, ManagerCall.update (3 / 2) midDraws,
      ManagerCall.update (7 / 2) midDraws]

/-- A constructed game pipe manager on an 800 by 1422 canvas, ticked for 1.5 s,
resized to 320 by 569 and ticked for another 1.5 s. -/
def managerAfterShrink : PipeManager :=
  (PipeManager.new 800 1422 50 gamePipeConfig 0).ops
    [ManagerOp.update (3 / 2) midDraws, ManagerOp.resize 320 569,
      ManagerOp.update (3 / 2) midDraws]

/-- A run of the pipe manager that keeps two pipes alive: a tick of 1.5 s, a
scoring check for a bird at x = 150, a widening of the canvas to 900 by 1600
while pipe 1 is on screen, and a second tick of 1.5 s. -/
def widenedRun : List ManagerOp :=
  [ManagerOp.update (3 / 2) midDraws, ManagerOp.checkScoring (birdAt 300).getBounds,
    ManagerOp.resize 900 1600, ManagerOp.update (3 / 2) midDraws]

/-! ## Theorems -/

/-! ### Collision engine -/

theorem checkCollisions_of_ground (cs : CollisionSystem) (bird : Bird) (pm : PipeManager)
    (canvasHeight : ℚ) (c : Collision)
    (h : cs.checkGroundCollision bird.getBounds canvasHeight = some c) :
    cs.checkCollisions bird pm canvasHeight = (some c, bird) := by
  simp [CollisionSystem.checkCollisions, h]

theorem checkGroundCollision_eq_none (cs : CollisionSystem) (bb : Bounds) (canvasHeight : ℚ)
    (h : ¬ bb.bottom > canvasHeight - cs.groundHeight) :
    cs.checkGroundCollision bb canvasHeight = none := by
  simp [CollisionSystem.checkGroundCollision, h]

theorem checkPipeCollisionLoop_eq_none (bb : Bounds) (pipes : List Pipe) :
    CollisionSystem.checkPipeCollisionLoop bb pipes = none ↔ ∀ p ∈ pipes, ¬ hitsPipe bb p := by
  induction pipes with
  | nil => simp [CollisionSystem.checkPipeCollisionLoop]
  | cons p rest ih =>
    rw [List.forall_mem_cons, ← ih]
    simp only [CollisionSystem.checkPipeCollisionLoop, Pipe.getBounds, hitsPipe]
    by_cases h1 : bb.right > p.x ∧ bb.left < p.x + p.width
    · by_cases h2 : bb.top < p.gapY
      · simp [h1, h2]
      · by_cases h3 : bb.bottom > p.gapY + p.gapHeight
        · simp [h1, h2, h3]
        · simp only [h1, h2, h3, if_true, if_false]
          constructor
          · intro h
            refine ⟨?_, h⟩
            rintro ⟨_, _, h4 | h4⟩
            · exact h4
            · exact h4
          · intro h
            exact h.2
    · simp only [h1, if_false]
      constructor
      · intro h
        refine ⟨?_, h⟩
        intro h4
        exact h1 ⟨h4.1, h4.2.1⟩
      · intro h
        exact h.2

theorem checkPipeCollisionLoop_type (bb : Bounds) (pipes : List Pipe) (c : Collision)
    (h : CollisionSystem.checkPipeCollisionLoop bb pipes = some c) :
    c.type = CollisionType.pipe_top ∨ c.type = CollisionType.pipe_bottom := by
  induction pipes with
  | nil => simp [CollisionSystem.checkPipeCollisionLoop] at h
  | cons p rest ih =>
    simp only [CollisionSystem.checkPipeCollisionLoop] at h
    split_ifs at h with h1 h2 h3
    · left
      simp only [Option.some.injEq] at h
      rw [← h]
    · right
      simp only [Option.some.injEq] at h
      rw [← h]
    · exact ih h
    · exact ih h

theorem checkCollisions_of_pipe (cs : CollisionSystem) (bird : Bird) (pm : PipeManager)
    (canvasHeight : ℚ) (c : Collision)
    (hg : cs.checkGroundCollision bird.getBounds canvasHeight = none)
    (hp : cs.checkPipeCollision bird.getBounds pm = some c) :
    cs.checkCollisions bird pm canvasHeight = (some c, bird) := by
  unfold CollisionSystem.checkCollisions
  simp only [hg, hp]

theorem checkCollisions_of_ceiling (cs : CollisionSystem) (bird : Bird) (pm : PipeManager)
    (canvasHeight : ℚ)
    (hg : cs.checkGroundCollision bird.getBounds canvasHeight = none)
    (hp : cs.checkPipeCollision bird.getBounds pm = none)
    (hc : bird.getBounds.top < 0) :
    cs.checkCollisions bird pm canvasHeight =
      (none, { bird with y := bird.height / 2, velocity := 0 }) := by
  unfold CollisionSystem.checkCollisions
  simp only [hg, hp, CollisionSystem.checkCeilingCollision, hc, if_true]

theorem checkCollisions_of_clear (cs : CollisionSystem) (bird : Bird) (pm : PipeManager)
    (canvasHeight : ℚ)
    (hg : cs.checkGroundCollision bird.getBounds canvasHeight = none)
    (hp : cs.checkPipeCollision bird.getBounds pm = none)
    (hc : ¬ bird.getBounds.top < 0) :
    cs.checkCollisions bird pm canvasHeight = (none, bird) := by
  unfold CollisionSystem.checkCollisions
  simp only [hg, hp, CollisionSystem.checkCeilingCollision, hc, if_false]

theorem checkCollisions_eq_pipeLoop (cs : CollisionSystem) (bird : Bird) (pm : PipeManager)
    (canvasHeight : ℚ)
    (hground : ¬ bird.getBounds.bottom > canvasHeight - cs.groundHeight) :
    (cs.checkCollisions bird pm canvasHeight).1 =
      CollisionSystem.checkPipeCollisionLoop bird.getBounds pm.pipes := by
  have hg : cs.checkGroundCollision bird.getBounds canvasHeight = none :=
    checkGroundCollision_eq_none cs _ _ hground
  cases hl : CollisionSystem.checkPipeCollisionLoop bird.getBounds pm.pipes with
  | some c => rw [checkCollisions_of_pipe cs bird pm canvasHeight c hg hl]
  | none =>
    by_cases hc : bird.getBounds.top < 0
    · rw [checkCollisions_of_ceiling cs bird pm canvasHeight hg hl hc]
    · rw [checkCollisions_of_clear cs bird pm canvasHeight hg hl hc]

theorem pipe_collision_type_aux (cs : CollisionSystem) (bird : Bird) (pm : PipeManager)
    (canvasHeight : ℚ)
    (hground : ¬ bird.getBounds.bottom > canvasHeight - cs.groundHeight) (c : Collision)
    (h : (cs.checkCollisions bird pm canvasHeight).1 = some c) :
    c.type = CollisionType.pipe_top ∨ c.type = CollisionType.pipe_bottom := by
  rw [checkCollisions_eq_pipeLoop cs bird pm canvasHeight hground] at h
  exact checkPipeCollisionLoop_type _ _ c h

/-- C1. Collision priority: when the bird's bottom edge `y + height/2` is below
the ground line `canvasHeight - groundHeight`, `checkCollisions` returns a
`ground` event (whatever the pipes are, so also when a pipe is overlapped),
located at the horizontal centre of the bird's bounds on the ground line. -/
theorem ground_collision_priority (cs : CollisionSystem) (bird : Bird) (pm : PipeManager)
    (canvasHeight : ℚ) (h : bird.y + bird.height / 2 > canvasHeight - cs.groundHeight) :
    ∃ c, (cs.checkCollisions bird pm canvasHeight).1 = some c ∧
      c.type = CollisionType.ground ∧
      c.point.x = (bird.getBounds.left + bird.getBounds.right) / 2 ∧
      c.point.y = canvasHeight - cs.groundHeight := by
  have hg : bird.getBounds.bottom > canvasHeight - cs.groundHeight := h
  have hgc : cs.checkGroundCollision bird.getBounds canvasHeight =
      some ⟨CollisionType.ground,
        ⟨bird.getBounds.left + (bird.getBounds.right - bird.getBounds.left) / 2,
          canvasHeight - cs.groundHeight⟩, none⟩ := by
    simp only [CollisionSystem.checkGroundCollision, hg, if_true]
  refine ⟨⟨CollisionType.ground,
    ⟨bird.getBounds.left + (bird.getBounds.right - bird.getBounds.left) / 2,
      canvasHeight - cs.groundHeight⟩, none⟩, ?_, rfl, ?_, rfl⟩
  · rw [checkCollisions_of_ground cs bird pm canvasHeight _ hgc]
  · simp only
    ring

/-- Witness of C1: a bird below the ground line that also overlaps the lower
half of a pipe. -/
theorem ground_collision_priority_witness :
    hitsPipe (birdAt 600).getBounds (pipeAt 140 100 1) ∧
    ∃ c, (gameCollisionSystem.checkCollisions (birdAt 600)
        (managerWith [pipeAt 140 100 1]) 640).1 = some c ∧
      c.type = CollisionType.ground ∧
      c.point.x = ((birdAt 600).getBounds.left + (birdAt 600).getBounds.right) / 2 ∧
      c.point.y = 640 - gameCollisionSystem.groundHeight :=
  ⟨by norm_num [hitsPipe, birdAt, pipeAt, Bird.getBounds, Bird.new, Pipe.new, orDefault,
      gameBirdConfig],
   ground_collision_priority gameCollisionSystem (birdAt 600) (managerWith [pipeAt 140 100 1]) 640
    (by norm_num [birdAt, Bird.new, orDefault, gameBirdConfig, gameCollisionSystem,
      CollisionSystem.new])⟩

/-- C2. Ceiling non-fatality: for a bird whose top edge `y - height/2` is
below 0, that is not past the ground line and overlaps no live pipe,
`checkCollisions` returns null and leaves the bird with `getBounds().top = 0`,
velocity 0 and its x unchanged. -/
theorem ceiling_is_not_fatal (cs : CollisionSystem) (bird : Bird) (pm : PipeManager)
    (canvasHeight : ℚ) (htop : bird.y - bird.height / 2 < 0)
    (hground : ¬ bird.y + bird.height / 2 > canvasHeight - cs.groundHeight)
    (hpipes : ∀ p ∈ pm.pipes, ¬ hitsPipe bird.getBounds p) :
    (cs.checkCollisions bird pm canvasHeight).1 = none ∧
    (cs.checkCollisions bird pm canvasHeight).2.getBounds.top = 0 ∧
    (cs.checkCollisions bird pm canvasHeight).2.velocity = 0 ∧
    (cs.checkCollisions bird pm canvasHeight).2.x = bird.x := by
  have hg : cs.checkGroundCollision bird.getBounds canvasHeight = none :=
    checkGroundCollision_eq_none cs _ _ hground
  have hp : cs.checkPipeCollision bird.getBounds pm = none :=
    (checkPipeCollisionLoop_eq_none _ _).2 hpipes
  have hc : bird.getBounds.top < 0 := htop
  rw [checkCollisions_of_ceiling cs bird pm canvasHeight hg hp hc]
  simp [Bird.getBounds]

/-- Witness of C2: a bird above the ceiling, left of the only live pipe. -/
theorem ceiling_is_not_fatal_witness :
    (gameCollisionSystem.checkCollisions (birdAt 5) (managerWith [pipeAt 300 100 1]) 640).1
      = none ∧
    (gameCollisionSystem.checkCollisions (birdAt 5)
      (managerWith [pipeAt 300 100 1]) 640).2.getBounds.top = 0 ∧
    (gameCollisionSystem.checkCollisions (birdAt 5)
      (managerWith [pipeAt 300 100 1]) 640).2.velocity = 0 ∧
    (gameCollisionSystem.checkCollisions (birdAt 5)
      (managerWith [pipeAt 300 100 1]) 640).2.x = (birdAt 5).x :=
  ceiling_is_not_fatal gameCollisionSystem (birdAt 5) (managerWith [pipeAt 300 100 1]) 640
    (by norm_num [birdAt, Bird.new, orDefault, gameBirdConfig])
    (by norm_num [birdAt, Bird.new, orDefault, gameBirdConfig, gameCollisionSystem,
      CollisionSystem.new])
    (by
      intro p hp
      simp only [managerWith, List.mem_singleton] at hp
      subst hp
      norm_num [hitsPipe, birdAt, pipeAt, Bird.getBounds, Bird.new, Pipe.new, orDefault,
        gameBirdConfig])

/-- C3. Obstacle collision characterisation: when the ground condition does
not hold, `checkCollisions` returns an event exactly when some live pipe is
overlapped horizontally and the bird is above the gap top or below the gap
bottom; that event has type `pipe_top` or `pipe_bottom`; otherwise (a bird
above the ceiling included) the result is null. -/
theorem pipe_collision_iff (cs : CollisionSystem) (bird : Bird) (pm : PipeManager)
    (canvasHeight : ℚ)
    (hground : ¬ bird.getBounds.bottom > canvasHeight - cs.groundHeight) :
    ((∃ c, (cs.checkCollisions bird pm canvasHeight).1 = some c) ↔
      ∃ p ∈ pm.pipes, bird.getBounds.right > p.x ∧ bird.getBounds.left < p.x + p.width ∧
        (bird.getBounds.top < p.gapY ∨ bird.getBounds.bottom > p.gapY + p.gapHeight)) ∧
    (∀ c, (cs.checkCollisions bird pm canvasHeight).1 = some c →
      c.type = CollisionType.pipe_top ∨ c.type = CollisionType.pipe_bottom) ∧
    ((¬ ∃ p ∈ pm.pipes, bird.getBounds.right > p.x ∧ bird.getBounds.left < p.x + p.width ∧
        (bird.getBounds.top < p.gapY ∨ bird.getBounds.bottom > p.gapY + p.gapHeight)) →
      (cs.checkCollisions bird pm canvasHeight).1 = none) := by
  have hres := checkCollisions_eq_pipeLoop cs bird pm canvasHeight hground
  have hnone := checkPipeCollisionLoop_eq_none bird.getBounds pm.pipes
  rw [hres]
  refine ⟨?_, ?_, ?_⟩
  · constructor
    · rintro ⟨c, hc⟩
      by_contra hno
      have : CollisionSystem.checkPipeCollisionLoop bird.getBounds pm.pipes = none :=
        hnone.2 (fun p hp hh => hno ⟨p, hp, hh⟩)
      rw [this] at hc
      cases hc
    · rintro ⟨p, hp, hh⟩
      cases hl : CollisionSystem.checkPipeCollisionLoop bird.getBounds pm.pipes with
      | some c => exact ⟨c, rfl⟩
      | none => exact absurd hh (hnone.1 hl p hp)
  · intro c hc
    exact checkPipeCollisionLoop_type _ _ c hc
  · intro hno
    exact hnone.2 (fun p hp hh => hno ⟨p, hp, hh⟩)

/-- Witness of C3: a bird in mid-air whose top edge is above the gap of the
pipe it overlaps. -/
theorem pipe_collision_iff_witness :
    (∃ c, (gameCollisionSystem.checkCollisions (birdAt 90)
        (managerWith [pipeAt 140 100 1]) 640).1 = some c) ∧
    ∀ c, (gameCollisionSystem.checkCollisions (birdAt 90)
        (managerWith [pipeAt 140 100 1]) 640).1 = some c →
      c.type = CollisionType.pipe_top ∨ c.type = CollisionType.pipe_bottom :=
  have h := pipe_collision_iff gameCollisionSystem (birdAt 90) (managerWith [pipeAt 140 100 1]) 640
    (by norm_num [birdAt, Bird.getBounds, Bird.new, orDefault, gameBirdConfig,
      gameCollisionSystem, CollisionSystem.new])
  ⟨h.1.2 ⟨pipeAt 140 100 1, by simp [managerWith],
      by norm_num [birdAt, pipeAt, Bird.getBounds, Bird.new, Pipe.new, orDefault,
        gameBirdConfig]⟩,
    h.2.1⟩

/-! ### The tick and the state machine -/

theorem State.ofValue_value (s : State) : State.ofValue s.value = some s := by
  cases s <;> decide

theorem changeState_currentState (sm : GameStateManager) (s : State) (throws : Effect → Bool) :
    (sm.changeState s.value throws).2.currentState = s := by
  unfold GameStateManager.changeState
  rw [State.ofValue_value]
  by_cases h : sm.currentState = s
  · simp [h]
  · simp only [h, if_false, GameStateManager.attempt]
    split_ifs <;> rfl

theorem updateScoring_stateManager (g : FlappyBirdGame) :
    g.updateScoring.stateManager = g.stateManager := by
  unfold FlappyBirdGame.updateScoring
  simp only
  split_ifs <;> rfl

theorem checkCollisions_stateManager (g : FlappyBirdGame) (throws : Effect → Bool) :
    (g.checkCollisions throws).2.stateManager.currentState =
      if (g.collisionSystem.checkCollisions g.bird g.pipeManager g.canvasHeight).1 = none then
        g.stateManager.currentState
      else State.GAME_OVER := by
  unfold FlappyBirdGame.checkCollisions
  cases h : (g.collisionSystem.checkCollisions g.bird g.pipeManager g.canvasHeight).1 with
  | none => simp only [h, if_true]
  | some c =>
    simp only [h, FlappyBirdGame.gameOver, changeState_currentState]
    simp

theorem update_currentState (g : FlappyBirdGame) (dt : ℚ) (rnd : Draws) (throws : Effect → Bool)
    (hplay : g.stateManager.currentState = State.PLAYING) :
    (g.update dt rnd throws).stateManager.currentState =
      if (g.collisionSystem.checkCollisions (g.bird.update dt) (g.pipeManager.update dt rnd)
          g.canvasHeight).1 = none then State.PLAYING
      else State.GAME_OVER := by
  unfold FlappyBirdGame.update
  simp only [GameStateManager.isState, hplay, decide_True, Bool.not_true, Bool.false_eq_true,
    if_false, updateScoring_stateManager, checkCollisions_stateManager,
    FlappyBirdGame.updateBird, FlappyBirdGame.updatePipes]

theorem checkCollisions_type (cs : CollisionSystem) (bird : Bird) (pm : PipeManager)
    (canvasHeight : ℚ) (c : Collision)
    (h : (cs.checkCollisions bird pm canvasHeight).1 = some c) :
    c.type = CollisionType.ground ∨ c.type = CollisionType.pipe_top ∨
      c.type = CollisionType.pipe_bottom := by
  by_cases hg : bird.getBounds.bottom > canvasHeight - cs.groundHeight
  · have hgc : cs.checkGroundCollision bird.getBounds canvasHeight =
        some ⟨CollisionType.ground,
          ⟨bird.getBounds.left + (bird.getBounds.right - bird.getBounds.left) / 2,
            canvasHeight - cs.groundHeight⟩, none⟩ := by
      simp only [CollisionSystem.checkGroundCollision, hg, if_true]
    rw [checkCollisions_of_ground cs bird pm canvasHeight _ hgc] at h
    simp only [Option.some.injEq] at h
    left
    rw [← h]
  · right
    exact (pipe_collision_type_aux cs bird pm canvasHeight hg c h)

/-- C4. In state Playing, after `update(dt)` the state machine is in GameOver
exactly when the collision check of that tick (on the bird and the pipes as
advanced by the tick) returned an event, and such an event is a ground or a
pipe event; when neither the ground condition nor a pipe overlap holds for the
advanced bird (a bird that only touches the ceiling included) the state is
still Playing. -/
theorem game_over_iff_collision (g : FlappyBirdGame) (dt : ℚ) (rnd : Draws)
    (throws : Effect → Bool) (hplay : g.stateManager.currentState = State.PLAYING) :
    ((g.update dt rnd throws).stateManager.currentState = State.GAME_OVER ↔
      ∃ c, (g.collisionSystem.checkCollisions (g.bird.update dt) (g.pipeManager.update dt rnd)
          g.canvasHeight).1 = some c ∧
        (c.type = CollisionType.ground ∨ c.type = CollisionType.pipe_top ∨
          c.type = CollisionType.pipe_bottom)) ∧
    (¬ (g.bird.update dt).getBounds.bottom > g.canvasHeight - g.collisionSystem.groundHeight →
      (∀ p ∈ (g.pipeManager.update dt rnd).pipes,
        ¬ ((g.bird.update dt).getBounds.right > p.x ∧
           (g.bird.update dt).getBounds.left < p.x + p.width ∧
           ((g.bird.update dt).getBounds.top < p.gapY ∨
            (g.bird.update dt).getBounds.bottom > p.gapY + p.gapHeight))) →
      (g.update dt rnd throws).stateManager.currentState = State.PLAYING) := by
  rw [update_currentState g dt rnd throws hplay]
  constructor
  · cases h : (g.collisionSystem.checkCollisions (g.bird.update dt) (g.pipeManager.update dt rnd)
        g.canvasHeight).1 with
    | none => simp
    | some c =>
      simp only [reduceCtorEq, if_false, Option.some.injEq, exists_eq_left', true_iff]
      exact checkCollisions_type _ _ _ _ c h
  · intro hground hpipes
    have h := checkCollisions_eq_pipeLoop g.collisionSystem (g.bird.update dt)
      (g.pipeManager.update dt rnd) g.canvasHeight hground
    rw [(checkPipeCollisionLoop_eq_none _ _).2 hpipes] at h
    simp only [h, if_true]

/-- Witness of C4: a tick of a game in Playing with the bird in mid-air and no
pipes, with enter and exit actions that throw. -/
theorem game_over_iff_collision_witness :
    (gameAt 300 []).stateManager.currentState = State.PLAYING ∧
    (((gameAt 300 []).update (1 / 60) midDraws actionsThrow).stateManager.currentState
        = State.GAME_OVER ↔
      ∃ c, ((gameAt 300 []).collisionSystem.checkCollisions ((gameAt 300 []).bird.update (1 / 60))
          ((gameAt 300 []).pipeManager.update (1 / 60) midDraws)
          (gameAt 300 []).canvasHeight).1 = some c ∧
        (c.type = CollisionType.ground ∨ c.type = CollisionType.pipe_top ∨
          c.type = CollisionType.pipe_bottom)) :=
  ⟨rfl, (game_over_iff_collision (gameAt 300 []) (1 / 60) midDraws actionsThrow rfl).1⟩

/-! ### Scoring -/

theorem checkScoringLoop_eq (b : Bounds) (pipes : List Pipe) (score : Nat) :
    PipeManager.checkScoringLoop b pipes score =
      (pipes.map (fun p =>
          if p.scored = false ∧ p.x + p.width < b.left then { p with scored := true } else p),
        score + pipes.countP (fun p => !p.scored && decide (p.x + p.width < b.left))) := by
  induction pipes generalizing score with
  | nil => simp [PipeManager.checkScoringLoop]
  | cons p rest ih =>
    unfold PipeManager.checkScoringLoop
    rw [List.countP_cons, List.map_cons, ih, ih]
    by_cases h : p.scored = false ∧ p.x + p.width < b.left
    · have hb : (!p.scored && decide (p.x + p.width < b.left)) = true := by
        simp [h.1, h.2]
      simp only [hb, if_true]
      rw [if_pos h]
      congr 1
      omega
    · have hb : (!p.scored && decide (p.x + p.width < b.left)) = false := by
        by_contra hb
        simp only [Bool.not_eq_false, Bool.and_eq_true, Bool.not_eq_true', decide_eq_true_eq] at hb
        exact h hb
      simp only [hb, Bool.false_eq_true, if_false, add_zero]
      rw [if_neg h]

theorem checkScoring_pipes (m : PipeManager) (b : Bounds) :
    (m.checkScoring b).2.pipes = m.pipes.map (fun p =>
      if p.scored = false ∧ p.x + p.width < b.left then { p with scored := true } else p) := by
  unfold PipeManager.checkScoring
  simp only [checkScoringLoop_eq]

theorem checkScoring_result (m : PipeManager) (b : Bounds) :
    (m.checkScoring b).1 =
      m.pipes.countP (fun p => !p.scored && decide (p.x + p.width < b.left)) := by
  unfold PipeManager.checkScoring
  simp only [checkScoringLoop_eq, zero_add]

/-- C5. `checkScoring(b)` returns the number of live pipes that were unscored
with `x + width < b.left` before the call; after it exactly those pipes have
been switched to `scored = true`, every other pipe is the same object as
before, and a switched pipe differs from the old one in the `scored` flag only
(so x, gapY and the sequence number of every pipe are unchanged); nothing else
in the manager changes. -/
theorem checkScoring_spec (m : PipeManager) (b : Bounds) :
    (m.checkScoring b).1 =
      m.pipes.countP (fun p => !p.scored && decide (p.x + p.width < b.left)) ∧
    (m.checkScoring b).2 =
      { m with
        pipes := m.pipes.map (fun p =>
          if p.scored = false ∧ p.x + p.width < b.left then { p with scored := true } else p) } := by
  unfold PipeManager.checkScoring
  simp only [checkScoringLoop_eq, zero_add, and_self]

/-! ### Pipe manager update -/

theorem update_pipes_eq (m : PipeManager) (dt : ℚ) (rnd : Draws) :
    (m.update dt rnd).pipes =
      ((if m.timer + dt ≥ m.pipeSpawnInterval then (m.createPipe rnd).pipes else m.pipes).map
        (fun p => p.update m.pipeSpeed dt)).filter (fun p => !p.isOffScreen) := by
  unfold PipeManager.update
  by_cases h : m.timer + dt ≥ m.pipeSpawnInterval
  · simp only [h, if_true, PipeManager.createPipe]
  · simp only [h, if_false]

/-- C7. Obstacle cleanup: after `update(dt)` no live pipe has `x + width < 0`;
the live list is exactly the advanced pipes (the old ones and the one spawned in
this tick, each moved by `-pipeSpeed*dt`) with `x + width >= 0`, so a pipe whose
right edge is exactly 0 stays, and the survivors keep their relative order. -/
theorem update_cleanup (m : PipeManager) (dt : ℚ) (rnd : Draws) :
    (∀ p ∈ (m.update dt rnd).pipes, ¬ p.x + p.width < 0) ∧
    (m.update dt rnd).pipes =
      ((if m.timer + dt ≥ m.pipeSpawnInterval then (m.createPipe rnd).pipes else m.pipes).map
        (fun p => p.update m.pipeSpeed dt)).filter (fun p => decide (0 ≤ p.x + p.width)) ∧
    (∀ p ∈ (if m.timer + dt ≥ m.pipeSpawnInterval then (m.createPipe rnd).pipes else m.pipes).map
        (fun p => p.update m.pipeSpeed dt),
      0 ≤ p.x + p.width → p ∈ (m.update dt rnd).pipes) ∧
    List.Sublist (m.update dt rnd).pipes
      ((if m.timer + dt ≥ m.pipeSpawnInterval then (m.createPipe rnd).pipes else m.pipes).map
        (fun p => p.update m.pipeSpeed dt)) := by
  have hf : (fun p : Pipe => !p.isOffScreen) = (fun p : Pipe => decide (0 ≤ p.x + p.width)) := by
    funext p
    unfold Pipe.isOffScreen
    by_cases h : p.x + p.width < 0
    · simp [h]
    · simp [h, not_lt.1 h]
  rw [update_pipes_eq, hf]
  refine ⟨?_, rfl, ?_, List.filter_sublist _⟩
  · intro p hp
    have := (List.mem_filter.1 hp).2
    simpa using this
  · intro p hp h0
    exact List.mem_filter.2 ⟨hp, by simpa using h0⟩

/-- C8. Spawn timer reset: when `timer + dt >= pipeSpawnInterval`, `update(dt)`
calls `createPipe` once (the counter grows by one and one pipe, created at
`x = canvasWidth` with the next sequence number, is appended), sets the timer
to exactly 0 and moves the new pipe by `-pipeSpeed*dt` in the same tick;
otherwise no pipe is created and the timer is `timer + dt`. -/
theorem update_spawn_timer (m : PipeManager) (dt : ℚ) (rnd : Draws) :
    (m.timer + dt ≥ m.pipeSpawnInterval →
      (m.update dt rnd).timer = 0 ∧
      (m.update dt rnd).pipeCount = m.pipeCount + 1 ∧
      ∃ pipe : Pipe,
        pipe.x = m.canvasWidth ∧ pipe.pipeNumber = m.pipeCount + 1 ∧ pipe.scored = false ∧
        pipe.gapY = rnd.gap * (m.maxGapY - m.minGapY) + m.minGapY ∧
        (pipe.update m.pipeSpeed dt).x = m.canvasWidth - m.pipeSpeed * dt ∧
        (m.update dt rnd).pipes =
          ((m.pipes ++ [pipe]).map (fun p => p.update m.pipeSpeed dt)).filter
            (fun p => !p.isOffScreen)) ∧
    (¬ m.timer + dt ≥ m.pipeSpawnInterval →
      (m.update dt rnd).timer = m.timer + dt ∧
      (m.update dt rnd).pipeCount = m.pipeCount ∧
      (m.update dt rnd).pipes =
        (m.pipes.map (fun p => p.update m.pipeSpeed dt)).filter (fun p => !p.isOffScreen)) := by
  constructor
  · intro h
    refine ⟨?_, ?_, ?_⟩
    · simp only [PipeManager.update, h, if_true]
    · simp only [PipeManager.update, h, if_true, PipeManager.createPipe]
    · obtain ⟨pipe, hpipes, hx, hn, hs, hgap⟩ : ∃ pipe : Pipe,
          (m.createPipe rnd).pipes = m.pipes ++ [pipe] ∧ pipe.x = m.canvasWidth ∧
          pipe.pipeNumber = m.pipeCount + 1 ∧ pipe.scored = false ∧
          pipe.gapY = rnd.gap * (m.maxGapY - m.minGapY) + m.minGapY :=
        ⟨_, rfl, rfl, rfl, rfl, rfl⟩
      refine ⟨pipe, hx, hn, hs, hgap, ?_, ?_⟩
      · simp only [Pipe.update, hx]
      · rw [update_pipes_eq, if_pos h, hpipes]
  · intro h
    refine ⟨?_, ?_, ?_⟩
    · simp only [PipeManager.update, h, if_false]
    · simp only [PipeManager.update, h, if_false]
    · rw [update_pipes_eq, if_neg h]

/-- Witness of C8: a frame hitch of 10 s on the game manager spawns one pipe
and leaves the timer at 0, not at 8.5. -/
theorem update_spawn_timer_witness :
    ((managerWith []).update 10 midDraws).timer = 0 ∧
    ((managerWith []).update 10 midDraws).pipeCount = 1 :=
  have h := (update_spawn_timer (managerWith []) 10 midDraws).1
    (by norm_num [managerWith, PipeManager.new, orDefault, gamePipeConfig])
  ⟨h.1, h.2.1⟩

/-! ### Bird physics -/

/-- C9. Physics step: `update(dt)` sets the velocity to `velocity + gravity*dt`
and y to `y + velocity'*dt` with the updated velocity `velocity'`, and leaves x,
width, height, gravity and jumpForce unchanged. -/
theorem bird_update_physics (b : Bird) (dt : ℚ) :
    (b.update dt).velocity = b.velocity + b.gravity * dt ∧
    (b.update dt).y = b.y + (b.velocity + b.gravity * dt) * dt ∧
    (b.update dt).y = b.y + (b.update dt).velocity * dt ∧
    (b.update dt).x = b.x ∧ (b.update dt).width = b.width ∧ (b.update dt).height = b.height ∧
    (b.update dt).gravity = b.gravity ∧ (b.update dt).jumpForce = b.jumpForce := by
  unfold Bird.update
  simp only
  split_ifs <;> simp

theorem bird_update_velocity (b : Bird) (dt : ℚ) :
    (b.update dt).velocity = b.velocity + b.gravity * dt ∧ (b.update dt).gravity = b.gravity := by
  unfold Bird.update
  simp only
  split_ifs <;> simp

theorem bird_updates_velocity (dts : List ℚ) (b : Bird) :
    (dts.foldl Bird.update b).velocity = b.velocity + b.gravity * dts.sum ∧
    (dts.foldl Bird.update b).gravity = b.gravity := by
  induction dts generalizing b with
  | nil => simp
  | cons dt rest ih =>
    have h := bird_update_velocity b dt
    simp only [List.foldl_cons, List.sum_cons]
    rw [(ih (b.update dt)).1, (ih (b.update dt)).2, h.1, h.2]
    exact ⟨by ring, rfl⟩

/-- C10. Sum invariance: after `jump()` followed by `update(dt_1)`, ...,
`update(dt_n)` the velocity is `jumpForce + gravity*(dt_1 + ... + dt_n)`; two
frame sequences with the same total time give the same velocity. -/
theorem jump_then_updates_velocity (b : Bird) (dts : List ℚ) :
    (dts.foldl Bird.update b.jump.1).velocity = b.jumpForce + b.gravity * dts.sum ∧
    ∀ dts2 : List ℚ, dts2.sum = dts.sum →
      (dts2.foldl Bird.update b.jump.1).velocity = (dts.foldl Bird.update b.jump.1).velocity := by
  have key : ∀ l : List ℚ,
      (l.foldl Bird.update b.jump.1).velocity = b.jumpForce + b.gravity * l.sum := by
    intro l
    rw [(bird_updates_velocity l b.jump.1).1]
    rfl
  refine ⟨key dts, ?_⟩
  intro dts2 hsum
  rw [key dts2, key dts, hsum]

/-- Witness of C10: gravity 1200, jump force -400, ten frames of 1/60 s give
velocity -200. -/
theorem jump_then_updates_velocity_witness :
    ((List.replicate 10 (1 / 60 : ℚ)).foldl Bird.update (birdAt 300).jump.1).velocity = -200 := by
  rw [(jump_then_updates_velocity (birdAt 300) (List.replicate 10 (1 / 60 : ℚ))).1]
  norm_num [birdAt, Bird.new, orDefault, gameBirdConfig]

/-! ### Scoring over a run -/

theorem update_pipeCount (m : PipeManager) (dt : ℚ) (rnd : Draws) :
    (m.update dt rnd).pipeCount =
      if m.timer + dt ≥ m.pipeSpawnInterval then m.pipeCount + 1 else m.pipeCount := by
  unfold PipeManager.update
  by_cases h : m.timer + dt ≥ m.pipeSpawnInterval
  · simp only [h, if_true, PipeManager.createPipe]
  · simp only [h, if_false]

theorem mem_update_pipes (m : PipeManager) (dt : ℚ) (rnd : Draws) (q : Pipe)
    (hq : q ∈ (m.update dt rnd).pipes) :
    (∃ p ∈ m.pipes, q = p.update m.pipeSpeed dt) ∨
    (m.timer + dt ≥ m.pipeSpawnInterval ∧ q.pipeNumber = m.pipeCount + 1 ∧ q.scored = false) := by
  rw [update_pipes_eq] at hq
  have hq1 := (List.mem_filter.1 hq).1
  obtain ⟨p, hp, rfl⟩ := List.mem_map.1 hq1
  by_cases h : m.timer + dt ≥ m.pipeSpawnInterval
  · rw [if_pos h] at hp
    simp only [PipeManager.createPipe, List.mem_append, List.mem_singleton] at hp
    rcases hp with hp | hp
    · exact Or.inl ⟨p, hp, rfl⟩
    · right
      subst hp
      exact ⟨h, rfl, rfl⟩
  · rw [if_neg h] at hp
    exact Or.inl ⟨p, hp, rfl⟩

theorem update_numbers_sublist (m : PipeManager) (dt : ℚ) (rnd : Draws) :
    List.Sublist ((m.update dt rnd).pipes.map (fun p => p.pipeNumber))
      (m.pipes.map (fun p => p.pipeNumber) ++ [m.pipeCount + 1]) := by
  rw [update_pipes_eq]
  refine List.Sublist.trans (List.Sublist.map _ (List.filter_sublist _)) ?_
  rw [List.map_map]
  have hfun : ((fun p : Pipe => p.pipeNumber) ∘ fun p : Pipe => p.update m.pipeSpeed dt) =
      fun p : Pipe => p.pipeNumber := rfl
  rw [hfun]
  by_cases h : m.timer + dt ≥ m.pipeSpawnInterval
  · rw [if_pos h]
    simp only [PipeManager.createPipe, List.map_append, List.map_cons, List.map_nil, Pipe.new]
    exact List.Sublist.refl _
  · rw [if_neg h]
    exact List.sublist_append_left _ _

theorem numbered_update (m : PipeManager) (dt : ℚ) (rnd : Draws) (h : m.numbered) :
    (m.update dt rnd).numbered := by
  constructor
  · refine List.Nodup.sublist (update_numbers_sublist m dt rnd) ?_
    rw [List.nodup_append]
    refine ⟨h.1, List.nodup_singleton _, ?_⟩
    intro n hn hn1
    obtain ⟨p, hp, rfl⟩ := List.mem_map.1 hn
    rw [List.mem_singleton] at hn1
    have := h.2 p hp
    omega
  · intro q hq
    rw [update_pipeCount]
    rcases mem_update_pipes m dt rnd q hq with ⟨p, hp, rfl⟩ | ⟨hs, hn, _⟩
    · have := h.2 p hp
      simp only [Pipe.update]
      split_ifs <;> omega
    · rw [if_pos hs, hn]

theorem checkScoring_pipeCount (m : PipeManager) (b : Bounds) :
    (m.checkScoring b).2.pipeCount = m.pipeCount := rfl

theorem mem_checkScoring_pipes (m : PipeManager) (b : Bounds) (q : Pipe)
    (hq : q ∈ (m.checkScoring b).2.pipes) :
    ∃ p ∈ m.pipes, q.pipeNumber = p.pipeNumber ∧ q.x = p.x ∧ q.width = p.width ∧
      (q.scored = true ↔ p.scored = true ∨ p.x + p.width < b.left) := by
  rw [checkScoring_pipes] at hq
  obtain ⟨p, hp, rfl⟩ := List.mem_map.1 hq
  refine ⟨p, hp, ?_⟩
  by_cases h : p.scored = false ∧ p.x + p.width < b.left
  · rw [if_pos h]
    simp [h.2]
  · rw [if_neg h]
    refine ⟨rfl, rfl, rfl, ?_⟩
    constructor
    · intro hs
      exact Or.inl hs
    · rintro (hs | hs)
      · exact hs
      · cases hsc : p.scored with
        | true => rfl
        | false => exact absurd ⟨hsc, hs⟩ h

theorem checkScoring_numbers (m : PipeManager) (b : Bounds) :
    (m.checkScoring b).2.pipes.map (fun p => p.pipeNumber) =
      m.pipes.map (fun p => p.pipeNumber) := by
  rw [checkScoring_pipes, List.map_map]
  apply List.map_congr_left
  intro p _
  simp only [Function.comp]
  split_ifs <;> rfl

theorem numbered_checkScoring (m : PipeManager) (b : Bounds) (h : m.numbered) :
    (m.checkScoring b).2.numbered := by
  constructor
  · rw [checkScoring_numbers]
    exact h.1
  · intro q hq
    obtain ⟨p, hp, hn, _⟩ := mem_checkScoring_pipes m b q hq
    rw [hn, checkScoring_pipeCount]
    exact h.2 p hp

theorem numbered_call (b : Bounds) (m : PipeManager) (c : ManagerCall) (h : m.numbered) :
    (m.call b c).numbered := by
  cases c with
  | update dt rnd => exact numbered_update m dt rnd h
  | checkScoring => exact numbered_checkScoring m b h

theorem numbered_calls (b : Bounds) (cs : List ManagerCall) (m : PipeManager) (h : m.numbered) :
    (m.calls b cs).numbered := by
  induction cs generalizing m with
  | nil => exact h
  | cons c rest ih => exact ih (m.call b c) (numbered_call b m c h)

theorem calls_append (b : Bounds) (m : PipeManager) (xs ys : List ManagerCall) :
    m.calls b (xs ++ ys) = (m.calls b xs).calls b ys := by
  simp only [PipeManager.calls, List.foldl_append]

theorem totalShare_append (k : Nat) (b : Bounds) (xs ys : List ManagerCall) (m : PipeManager) :
    PipeManager.totalShare k b m (xs ++ ys) =
      PipeManager.totalShare k b m xs + PipeManager.totalShare k b (m.calls b xs) ys := by
  induction xs generalizing m with
  | nil => simp [PipeManager.totalShare, PipeManager.calls]
  | cons c rest ih =>
    cases c with
    | update dt rnd =>
      show PipeManager.totalShare k b (m.update dt rnd) (rest ++ ys) =
        PipeManager.totalShare k b (m.update dt rnd) rest +
          PipeManager.totalShare k b ((m.update dt rnd).calls b rest) ys
      exact ih _
    | checkScoring =>
      show m.shareOf k b + PipeManager.totalShare k b (m.checkScoring b).2 (rest ++ ys) =
        m.shareOf k b + PipeManager.totalShare k b (m.checkScoring b).2 rest +
          PipeManager.totalShare k b ((m.checkScoring b).2.calls b rest) ys
      rw [ih, add_assoc]

theorem shareOf_eq (m : PipeManager) (k : Nat) (b : Bounds) :
    m.shareOf k b = m.pipes.countP (fun p =>
      decide (p.pipeNumber = k) && (!p.scored && decide (p.x + p.width < b.left))) := by
  unfold PipeManager.shareOf
  rw [checkScoring_result, checkScoring_result]
  simp only
  induction m.pipes with
  | nil => simp
  | cons p rest ih =>
    have hle : ∀ l : List Pipe,
        (l.filter (fun p => decide (p.pipeNumber ≠ k))).countP
          (fun p => !p.scored && decide (p.x + p.width < b.left)) ≤
        l.countP (fun p => !p.scored && decide (p.x + p.width < b.left)) :=
      fun l => List.Sublist.countP_le _ (List.filter_sublist l)
    have hr := hle rest
    rw [List.countP_cons, List.countP_cons, ← ih]
    by_cases hk : p.pipeNumber = k
    · have hf : (p :: rest).filter (fun p => decide (p.pipeNumber ≠ k)) =
          rest.filter (fun p => decide (p.pipeNumber ≠ k)) := by
        rw [List.filter_cons_of_neg]
        simp [hk]
      rw [hf]
      simp only [hk, decide_True, Bool.true_and]
      omega
    · have hf : (p :: rest).filter (fun p => decide (p.pipeNumber ≠ k)) =
          p :: rest.filter (fun p => decide (p.pipeNumber ≠ k)) := by
        rw [List.filter_cons_of_pos]
        simp [hk]
      rw [hf, List.countP_cons]
      simp only [hk, decide_False, Bool.false_and, Bool.false_eq_true, if_false, add_zero]
      omega

theorem shareOf_le_one (m : PipeManager) (k : Nat) (b : Bounds) (h : m.numbered) :
    m.shareOf k b ≤ 1 := by
  rw [shareOf_eq]
  have h1 : m.pipes.countP (fun p =>
      decide (p.pipeNumber = k) && (!p.scored && decide (p.x + p.width < b.left))) ≤
      m.pipes.countP (fun p => decide (p.pipeNumber = k)) := by
    apply List.countP_mono_left
    intro p _ hp
    simp only [Bool.and_eq_true, decide_eq_true_eq] at hp
    simp only [decide_eq_true_eq]
    exact hp.1
  have h2 : m.pipes.countP (fun p => decide (p.pipeNumber = k)) =
      (m.pipes.map (fun p => p.pipeNumber)).count k := by
    rw [List.count, List.countP_map]
    apply List.countP_congr
    intro p _
    simp only [Function.comp, beq_iff_eq, decide_eq_true_eq]
  have h3 := List.nodup_iff_count_le_one.1 h.1 k
  omega

theorem shareOf_pos_iff (m : PipeManager) (k : Nat) (b : Bounds) :
    0 < m.shareOf k b ↔
      ∃ p ∈ m.pipes, p.pipeNumber = k ∧ p.scored = false ∧ p.x + p.width < b.left := by
  rw [shareOf_eq, List.countP_pos_iff]
  constructor
  · rintro ⟨p, hp, h⟩
    simp only [Bool.and_eq_true, decide_eq_true_eq, Bool.not_eq_true'] at h
    exact ⟨p, hp, h⟩
  · rintro ⟨p, hp, h⟩
    refine ⟨p, hp, ?_⟩
    simp only [Bool.and_eq_true, decide_eq_true_eq, Bool.not_eq_true']
    exact h

theorem same_pipe_of_numbered (m : PipeManager) (h : m.numbered) (p q : Pipe)
    (hp : p ∈ m.pipes) (hq : q ∈ m.pipes) (hn : p.pipeNumber = q.pipeNumber) : p = q :=
  List.inj_on_of_nodup_map h.1 hp hq hn

theorem settled_update (m : PipeManager) (k : Nat) (dt : ℚ) (rnd : Draws) (h : m.settled k) :
    (m.update dt rnd).settled k := by
  constructor
  · rw [update_pipeCount]
    have := h.1
    split_ifs <;> omega
  · intro q hq hk
    rcases mem_update_pipes m dt rnd q hq with ⟨p, hp, rfl⟩ | ⟨_, hn, _⟩
    · exact h.2 p hp hk
    · have := h.1
      omega

theorem settled_checkScoring (m : PipeManager) (k : Nat) (b : Bounds) (h : m.settled k) :
    (m.checkScoring b).2.settled k := by
  constructor
  · exact h.1
  · intro q hq hk
    obtain ⟨p, hp, hn, _, _, hs⟩ := mem_checkScoring_pipes m b q hq
    exact hs.2 (Or.inl (h.2 p hp (hn ▸ hk)))

theorem settled_calls (b : Bounds) (k : Nat) (cs : List ManagerCall) (m : PipeManager)
    (h : m.settled k) : (m.calls b cs).settled k := by
  induction cs generalizing m with
  | nil => exact h
  | cons c rest ih =>
    cases c with
    | update dt rnd => exact ih _ (settled_update m k dt rnd h)
    | checkScoring => exact ih _ (settled_checkScoring m k b h)

theorem shareOf_of_settled (m : PipeManager) (k : Nat) (b : Bounds) (h : m.settled k) :
    m.shareOf k b = 0 := by
  by_contra hne
  obtain ⟨p, hp, hk, hs, _⟩ := (shareOf_pos_iff m k b).1 (Nat.pos_of_ne_zero hne)
  rw [h.2 p hp hk] at hs
  cases hs

theorem totalShare_of_settled (k : Nat) (b : Bounds) (cs : List ManagerCall) (m : PipeManager)
    (h : m.settled k) : PipeManager.totalShare k b m cs = 0 := by
  induction cs generalizing m with
  | nil => rfl
  | cons c rest ih =>
    cases c with
    | update dt rnd => exact ih _ (settled_update m k dt rnd h)
    | checkScoring =>
      show m.shareOf k b + PipeManager.totalShare k b (m.checkScoring b).2 rest = 0
      rw [shareOf_of_settled m k b h, ih _ (settled_checkScoring m k b h)]

theorem settled_of_scored (m : PipeManager) (k : Nat) (h : m.numbered)
    (hex : ∃ p ∈ m.pipes, p.pipeNumber = k ∧ p.scored = true) : m.settled k := by
  obtain ⟨p, hp, hk, hs⟩ := hex
  constructor
  · rw [← hk]
    exact h.2 p hp
  · intro q hq hqk
    rw [← same_pipe_of_numbered m h p q hp hq (hk.trans hqk.symm)]
    exact hs

theorem settled_after_passed (m : PipeManager) (k : Nat) (b : Bounds) (h : m.numbered)
    (hex : ∃ p ∈ m.pipes, p.pipeNumber = k ∧ p.x + p.width < b.left) :
    (m.checkScoring b).2.settled k := by
  obtain ⟨p, hp, hk, hpass⟩ := hex
  constructor
  · show k ≤ m.pipeCount
    rw [← hk]
    exact h.2 p hp
  · intro q hq hqk
    obtain ⟨p2, hp2, hn, _, _, hs⟩ := mem_checkScoring_pipes m b q hq
    have : p = p2 := same_pipe_of_numbered m h p p2 hp hp2 (by rw [hk, ← hn, hqk])
    subst this
    exact hs.2 (Or.inr hpass)

theorem unscored_update (m : PipeManager) (k : Nat) (dt : ℚ) (rnd : Draws) (h : m.unscored k) :
    (m.update dt rnd).unscored k := by
  intro q hq hk
  rcases mem_update_pipes m dt rnd q hq with ⟨p, hp, rfl⟩ | ⟨_, _, hs⟩
  · exact h p hp hk
  · exact hs

theorem unscored_checkScoring (m : PipeManager) (k : Nat) (b : Bounds) (h : m.unscored k)
    (h0 : m.shareOf k b = 0) : (m.checkScoring b).2.unscored k := by
  intro q hq hk
  obtain ⟨p, hp, hn, _, _, hs⟩ := mem_checkScoring_pipes m b q hq
  have hpk : p.pipeNumber = k := hn ▸ hk
  cases hq2 : q.scored with
  | false => rfl
  | true =>
    exfalso
    rcases hs.1 hq2 with h1 | h1
    · rw [h p hp hpk] at h1
      cases h1
    · have : 0 < m.shareOf k b := (shareOf_pos_iff m k b).2 ⟨p, hp, hpk, h p hp hpk, h1⟩
      omega

theorem totalShare_le_one (k : Nat) (b : Bounds) (cs : List ManagerCall) (m : PipeManager)
    (h : m.numbered) : PipeManager.totalShare k b m cs ≤ 1 := by
  induction cs generalizing m with
  | nil => exact Nat.zero_le 1
  | cons c rest ih =>
    cases c with
    | update dt rnd => exact ih _ (numbered_update m dt rnd h)
    | checkScoring =>
      show m.shareOf k b + PipeManager.totalShare k b (m.checkScoring b).2 rest ≤ 1
      have h1 := shareOf_le_one m k b h
      by_cases h0 : m.shareOf k b = 0
      · rw [h0, zero_add]
        exact ih _ (numbered_checkScoring m b h)
      · obtain ⟨p, hp, hk, _, hpass⟩ := (shareOf_pos_iff m k b).1 (Nat.pos_of_ne_zero h0)
        rw [totalShare_of_settled k b rest _ (settled_after_passed m k b h ⟨p, hp, hk, hpass⟩)]
        omega

theorem totalShare_eq_one_of_scored_at_end (k : Nat) (b : Bounds) (cs : List ManagerCall)
    (m : PipeManager) (h : m.numbered) (hu : m.unscored k)
    (hex : ∃ p ∈ (m.calls b cs).pipes, p.pipeNumber = k ∧ p.scored = true) :
    PipeManager.totalShare k b m cs = 1 := by
  induction cs generalizing m with
  | nil =>
    obtain ⟨p, hp, hk, hs⟩ := hex
    have := hu p hp hk
    rw [hs] at this
    cases this
  | cons c rest ih =>
    cases c with
    | update dt rnd => exact ih _ (numbered_update m dt rnd h) (unscored_update m k dt rnd hu) hex
    | checkScoring =>
      show m.shareOf k b + PipeManager.totalShare k b (m.checkScoring b).2 rest = 1
      have h1 := shareOf_le_one m k b h
      by_cases h0 : m.shareOf k b = 0
      · rw [h0, zero_add]
        exact ih _ (numbered_checkScoring m b h) (unscored_checkScoring m k b hu h0) hex
      · obtain ⟨p, hp, hk, _, hpass⟩ := (shareOf_pos_iff m k b).1 (Nat.pos_of_ne_zero h0)
        rw [totalShare_of_settled k b rest _ (settled_after_passed m k b h ⟨p, hp, hk, hpass⟩)]
        omega

/-- C6. Scoring idempotence, for pipes told apart by their sequence number, a
manager whose live pipes carry distinct numbers not above the spawn counter,
fixed bird bounds `b` and any sequence of `update` and `checkScoring` calls:
(1) once the pipe is scored it is scored in every later state in which it is
still live; (2) if the pipe is unscored at the start and a `checkScoring` call
is made when it is live with `x + width < b.left`, then up to and including
that call it has added exactly 1 to the results, it adds exactly 1 over the
whole sequence, and it adds 0 to every later call; (3) in any case it adds at
most 1 in total. -/
theorem scoring_idempotent (m : PipeManager) (b : Bounds) (k : Nat)
    (before after : List ManagerCall) (hnum : m.numbered) :
    ((∃ p ∈ (m.calls b before).pipes, p.pipeNumber = k ∧ p.scored = true) →
      ∀ q ∈ (m.calls b (before ++ after)).pipes, q.pipeNumber = k → q.scored = true) ∧
    ((∀ p ∈ m.pipes, p.pipeNumber = k → p.scored = false) →
      (∃ p ∈ (m.calls b before).pipes, p.pipeNumber = k ∧ p.x + p.width < b.left) →
      PipeManager.totalShare k b m (before ++ [ManagerCall.checkScoring]) = 1 ∧
      PipeManager.totalShare k b m (before ++ ManagerCall.checkScoring :: after) = 1 ∧
      PipeManager.totalShare k b (m.calls b (before ++ [ManagerCall.checkScoring])) after = 0) ∧
    PipeManager.totalShare k b m (before ++ after) ≤ 1 := by
  have hnum1 := numbered_calls b before m hnum
  refine ⟨?_, ?_, totalShare_le_one k b _ m hnum⟩
  · intro hex q hq hk
    rw [calls_append] at hq
    exact (settled_calls b k after _ (settled_of_scored _ k hnum1 hex)).2 q hq hk
  · intro hu hex
    have hset : ((m.calls b before).checkScoring b).2.settled k :=
      settled_after_passed _ k b hnum1 hex
    have hcalls : m.calls b (before ++ [ManagerCall.checkScoring]) =
        ((m.calls b before).checkScoring b).2 := by
      rw [calls_append]
      rfl
    have hone : PipeManager.totalShare k b m (before ++ [ManagerCall.checkScoring]) = 1 := by
      obtain ⟨p, hp, hk, hpass⟩ := hex
      have hq : ∃ q ∈ (m.calls b (before ++ [ManagerCall.checkScoring])).pipes,
          q.pipeNumber = k ∧ q.scored = true := by
        rw [hcalls, checkScoring_pipes]
        refine ⟨if p.scored = false ∧ p.x + p.width < b.left then { p with scored := true } else p,
          List.mem_map.2 ⟨p, hp, rfl⟩, ?_, ?_⟩
        · split_ifs
          · exact hk
          · exact hk
        · split_ifs with hc
          · rfl
          · cases hsc : p.scored with
            | true => rfl
            | false => exact absurd ⟨hsc, hpass⟩ hc
      exact totalShare_eq_one_of_scored_at_end k b _ m hnum hu hq
    have hzero : PipeManager.totalShare k b
        (m.calls b (before ++ [ManagerCall.checkScoring])) after = 0 := by
      rw [hcalls]
      exact totalShare_of_settled k b after _ hset
    refine ⟨hone, ?_, hzero⟩
    have happ : before ++ ManagerCall.checkScoring :: after =
        (before ++ [ManagerCall.checkScoring]) ++ after := by simp
    rw [happ, totalShare_append, hone, hzero]

/-- Witness of C6: one pipe of the game, 100 px from the left edge, with the
bird bounds of a bird at x = 150; after half a second the pipe has passed the
bird, and three `checkScoring` calls separated by an `update` count it once. -/
theorem scoring_idempotent_witness :
    (managerWith [pipeAt 100 100 1]).numbered ∧
    PipeManager.totalShare 1 (birdAt 300).getBounds (managerWith [pipeAt 100 100 1])
      ([ManagerCall.update (1 / 2) midDraws] ++ ManagerCall.checkScoring ::
        [ManagerCall.checkScoring, ManagerCall.update (1 / 60) midDraws,
          ManagerCall.checkScoring]) = 1 ∧
    PipeManager.totalShare 1 (birdAt 300).getBounds
      ((managerWith [pipeAt 100 100 1]).calls (birdAt 300).getBounds
        ([ManagerCall.update (1 / 2) midDraws] ++ [ManagerCall.checkScoring]))
      [ManagerCall.checkScoring, ManagerCall.update (1 / 60) midDraws,
        ManagerCall.checkScoring] = 0 :=
  have hnum : (managerWith [pipeAt 100 100 1]).numbered := by
    decide
  have h := (scoring_idempotent (managerWith [pipeAt 100 100 1]) (birdAt 300).getBounds 1
    [ManagerCall.update (1 / 2) midDraws]
    [ManagerCall.checkScoring, ManagerCall.update (1 / 60) midDraws, ManagerCall.checkScoring]
    hnum).2.1
    (by simp [managerWith, pipeAt, Pipe.new])
    (by norm_num [PipeManager.calls, PipeManager.call, PipeManager.update, managerWith,
      PipeManager.new, orDefault, gamePipeConfig, midDraws, pipeAt, Pipe.new, Pipe.update,
      Pipe.isOffScreen, birdAt, Bird.getBounds, Bird.new, gameBirdConfig])
  ⟨hnum, h.2.1, h.2.2⟩

/-! ### Rotation -/

theorem bird_update_rotation (b : Bird) (dt : ℚ) :
    (b.update dt).rotation =
      min b.maxRotation (max b.minRotation ((b.velocity + b.gravity * dt) / 600)) ∧
    (b.update dt).maxRotation = b.maxRotation ∧ (b.update dt).minRotation = b.minRotation := by
  unfold Bird.update
  simp only
  split_ifs <;> simp

theorem MathPI_pos : 0 < MathPI := by
  norm_num [MathPI]

/-- C11. Rotation clamp: after `update(dt)` the rotation is
`min(maxRotation, max(minRotation, velocity'/600))` for the updated velocity
`velocity'`; with `maxRotation = π/4 = -minRotation` (the values the
constructor stores, `Math.PI` for π) it lies in `[-π/4, π/4]`, is exactly
`π/4` when `velocity' >= 600*π/4` and exactly `-π/4` when
`velocity' <= -600*π/4`. -/
theorem rotation_clamp (b : Bird) (dt : ℚ) (hmax : b.maxRotation = MathPI / 4)
    (hmin : b.minRotation = -MathPI / 4) :
    (b.update dt).rotation =
      min b.maxRotation (max b.minRotation ((b.update dt).velocity / 600)) ∧
    (-MathPI / 4 ≤ (b.update dt).rotation ∧ (b.update dt).rotation ≤ MathPI / 4) ∧
    ((b.update dt).velocity ≥ 600 * (MathPI / 4) → (b.update dt).rotation = MathPI / 4) ∧
    ((b.update dt).velocity ≤ -600 * (MathPI / 4) → (b.update dt).rotation = -MathPI / 4) := by
  have hpi := MathPI_pos
  rw [(bird_update_velocity b dt).1, (bird_update_rotation b dt).1, hmax, hmin]
  refine ⟨rfl, ⟨?_, min_le_left _ _⟩, ?_, ?_⟩
  · exact le_min (by linarith) (le_max_left _ _)
  · intro hv
    have h1 : MathPI / 4 ≤ (b.velocity + b.gravity * dt) / 600 := by
      rw [le_div_iff₀ (by norm_num)]
      linarith
    exact min_eq_left (le_trans h1 (le_max_right _ _))
  · intro hv
    have h1 : (b.velocity + b.gravity * dt) / 600 ≤ -MathPI / 4 := by
      rw [div_le_iff₀ (by norm_num)]
      linarith
    rw [max_eq_left h1]
    exact min_eq_right (by linarith)

/-- Witness of C11: the game bird falling at 500 px/s, one frame later. -/
theorem rotation_clamp_witness :
    (-MathPI / 4 ≤ (({ birdAt 300 with velocity := 500 } : Bird).update (1 / 60)).rotation ∧
      (({ birdAt 300 with velocity := 500 } : Bird).update (1 / 60)).rotation ≤ MathPI / 4) ∧
    (({ birdAt 300 with velocity := 500 } : Bird).update (1 / 60)).rotation = MathPI / 4 :=
  have h := rotation_clamp ({ birdAt 300 with velocity := 500 } : Bird) (1 / 60) rfl rfl
  ⟨h.2.1, h.2.2.1 (by
    rw [(bird_update_velocity _ _).1]
    norm_num [birdAt, Bird.new, orDefault, gameBirdConfig, MathPI])⟩

/-- The constants of the rotation clamp are the constructor's and the rotation
is within them. -/
theorem rotationInv_new (x y : ℚ) (images : Option Nat) (config : BirdConfig) :
    (Bird.new x y images config).maxRotation = MathPI / 4 ∧
    (Bird.new x y images config).minRotation = -MathPI / 4 ∧
    -MathPI / 4 ≤ (Bird.new x y images config).rotation ∧
    (Bird.new x y images config).rotation ≤ MathPI / 4 := by
  have hpi := MathPI_pos
  refine ⟨rfl, rfl, ?_, ?_⟩
  · show -MathPI / 4 ≤ 0
    linarith
  · show (0 : ℚ) ≤ MathPI / 4
    linarith

theorem checkCollisions_bird (cs : CollisionSystem) (bird : Bird) (pm : PipeManager)
    (canvasHeight : ℚ) :
    (cs.checkCollisions bird pm canvasHeight).2 = bird ∨
    (cs.checkCollisions bird pm canvasHeight).2 =
      { bird with y := bird.height / 2, velocity := 0 } := by
  cases hg : cs.checkGroundCollision bird.getBounds canvasHeight with
  | some c =>
    left
    rw [checkCollisions_of_ground cs bird pm canvasHeight c hg]
  | none =>
    cases hp : cs.checkPipeCollision bird.getBounds pm with
    | some c =>
      left
      rw [checkCollisions_of_pipe cs bird pm canvasHeight c hg hp]
    | none =>
      by_cases hc : bird.getBounds.top < 0
      · right
        rw [checkCollisions_of_ceiling cs bird pm canvasHeight hg hp hc]
      · left
        rw [checkCollisions_of_clear cs bird pm canvasHeight hg hp hc]

theorem checkCollisions_bird_rotation (cs : CollisionSystem) (bird : Bird) (pm : PipeManager)
    (canvasHeight : ℚ) :
    (cs.checkCollisions bird pm canvasHeight).2.rotation = bird.rotation ∧
    (cs.checkCollisions bird pm canvasHeight).2.maxRotation = bird.maxRotation ∧
    (cs.checkCollisions bird pm canvasHeight).2.minRotation = bird.minRotation := by
  rcases checkCollisions_bird cs bird pm canvasHeight with h | h <;> rw [h] <;> exact ⟨rfl, rfl, rfl⟩

theorem rotationInv_call (b : Bird) (c : BirdCall)
    (h : b.maxRotation = MathPI / 4 ∧ b.minRotation = -MathPI / 4 ∧
      -MathPI / 4 ≤ b.rotation ∧ b.rotation ≤ MathPI / 4) :
    (b.call c).maxRotation = MathPI / 4 ∧ (b.call c).minRotation = -MathPI / 4 ∧
      -MathPI / 4 ≤ (b.call c).rotation ∧ (b.call c).rotation ≤ MathPI / 4 := by
  have hpi := MathPI_pos
  obtain ⟨hmax, hmin, hlo, hhi⟩ := h
  cases c with
  | update dt =>
    have hr := bird_update_rotation b dt
    simp only [Bird.call]
    rw [hr.1, hr.2.1, hr.2.2, hmax, hmin]
    exact ⟨rfl, rfl, le_min (by linarith) (le_max_left _ _), min_le_left _ _⟩
  | jump => exact ⟨hmax, hmin, hlo, hhi⟩
  | reset x y =>
    refine ⟨hmax, hmin, ?_, ?_⟩
    · show -MathPI / 4 ≤ 0
      linarith
    · show (0 : ℚ) ≤ MathPI / 4
      linarith
  | checkCollisions cs pm ch =>
    have hr := checkCollisions_bird_rotation cs b pm ch
    simp only [Bird.call]
    rw [hr.1, hr.2.1, hr.2.2]
    exact ⟨hmax, hmin, hlo, hhi⟩

theorem rotationInv_calls (cs : List BirdCall) (b : Bird)
    (h : b.maxRotation = MathPI / 4 ∧ b.minRotation = -MathPI / 4 ∧
      -MathPI / 4 ≤ b.rotation ∧ b.rotation ≤ MathPI / 4) :
    (b.calls cs).maxRotation = MathPI / 4 ∧ (b.calls cs).minRotation = -MathPI / 4 ∧
      -MathPI / 4 ≤ (b.calls cs).rotation ∧ (b.calls cs).rotation ≤ MathPI / 4 := by
  induction cs generalizing b with
  | nil => exact h
  | cons c rest ih => exact ih (b.call c) (rotationInv_call b c h)

theorem clampRotation_zero : clampRotation 0 = 0 := by
  have hpi := MathPI_pos
  unfold clampRotation
  rw [zero_div, max_eq_right (by linarith), min_eq_right (by linarith)]

/-- Counterexample to C12: the freshly constructed game bird after one
`jump()` has velocity -400 and still rotation 0, while
`clamp(-400/600, -π/4, π/4) = -2/3`. -/
theorem rotation_desync_after_jump :
    ((birdAt 300).calls [BirdCall.jump]).velocity = -400 ∧
    ((birdAt 300).calls [BirdCall.jump]).rotation = 0 ∧
    clampRotation ((birdAt 300).calls [BirdCall.jump]).velocity = -2 / 3 ∧
    ((birdAt 300).calls [BirdCall.jump]).rotation ≠
      clampRotation ((birdAt 300).calls [BirdCall.jump]).velocity := by
  have hv : ((birdAt 300).calls [BirdCall.jump]).velocity = -400 := by
    norm_num [Bird.calls, Bird.call, Bird.jump, birdAt, Bird.new, orDefault, gameBirdConfig]
  have hr : ((birdAt 300).calls [BirdCall.jump]).rotation = 0 := rfl
  have hc : clampRotation (-400) = -2 / 3 := by
    unfold clampRotation
    rw [max_eq_right (by norm_num [MathPI]), min_eq_right (by norm_num [MathPI])]
    norm_num
  rw [hv, hr, hc]
  exact ⟨rfl, rfl, rfl, by norm_num⟩

/-- C12, amended. In every bird state `B` reachable from construction by
`update`, `jump`, `reset` and `checkCollisions` calls the rotation lies in
`[-π/4, π/4]`; rotation equals `clamp(velocity/600, -π/4, π/4)` of the current
velocity right after construction, after every `update` and after every
`reset`; `jump` and `checkCollisions` (the ceiling clamp) leave the rotation as
it was. -/
theorem rotation_follows_last_update (x y : ℚ) (images : Option Nat) (config : BirdConfig)
    (calls : List BirdCall) :
    (-MathPI / 4 ≤ ((Bird.new x y images config).calls calls).rotation ∧
      ((Bird.new x y images config).calls calls).rotation ≤ MathPI / 4) ∧
    (Bird.new x y images config).rotation =
      clampRotation (Bird.new x y images config).velocity ∧
    (∀ dt : ℚ, (((Bird.new x y images config).calls calls).update dt).rotation =
      clampRotation (((Bird.new x y images config).calls calls).update dt).velocity) ∧
    (∀ x2 y2 : ℚ, (((Bird.new x y images config).calls calls).reset x2 y2).rotation =
      clampRotation (((Bird.new x y images config).calls calls).reset x2 y2).velocity) ∧
    ((Bird.new x y images config).calls calls).jump.1.rotation =
      ((Bird.new x y images config).calls calls).rotation ∧
    (∀ (cs : CollisionSystem) (pm : PipeManager) (canvasHeight : ℚ),
      (cs.checkCollisions ((Bird.new x y images config).calls calls) pm canvasHeight).2.rotation =
        ((Bird.new x y images config).calls calls).rotation) := by
  have hinv := rotationInv_calls calls _ (rotationInv_new x y images config)
  refine ⟨⟨hinv.2.2.1, hinv.2.2.2⟩, ?_, ?_, ?_, rfl, ?_⟩
  · show (0 : ℚ) = clampRotation 0
    rw [clampRotation_zero]
  · intro dt
    rw [(bird_update_rotation _ dt).1, (bird_update_velocity _ dt).1, hinv.1, hinv.2.1]
    rfl
  · intro x2 y2
    show (0 : ℚ) = clampRotation 0
    rw [clampRotation_zero]
  · intro cs pm ch
    exact (checkCollisions_bird_rotation cs _ pm ch).1

/-- C13. `jump()` sets the velocity to `jumpForce` whatever it was (so a second
`jump()` changes nothing), leaves x and y unchanged and returns
`shouldPlaySound = true`. -/
theorem jump_assigns_jumpForce (b : Bird) :
    b.jump.1.velocity = b.jumpForce ∧
    (∀ v : ℚ, ({ b with velocity := v } : Bird).jump.1.velocity = b.jumpForce) ∧
    b.jump.1.jump.1 = b.jump.1 ∧
    b.jump.1.x = b.x ∧ b.jump.1.y = b.y ∧
    b.jump.2 = true ∧ b.jump.1.jump.2 = true :=
  ⟨rfl, fun _ => rfl, rfl, rfl, rfl, rfl, rfl⟩

/-! ### State manager -/

theorem State.ofValue_eq_none (newState : String)
    (h : newState ∉ ["loading", "start", "playing", "paused", "gameOver"]) :
    State.ofValue newState = none := by
  simp only [List.mem_cons, List.mem_singleton, List.not_mem_nil, or_false, not_or] at h
  obtain ⟨h1, h2, h3, h4, h5⟩ := h
  have e1 : ("loading" == newState) = false := beq_false_of_ne (fun e => h1 e.symm)
  have e2 : ("start" == newState) = false := beq_false_of_ne (fun e => h2 e.symm)
  have e3 : ("playing" == newState) = false := beq_false_of_ne (fun e => h3 e.symm)
  have e4 : ("paused" == newState) = false := beq_false_of_ne (fun e => h4 e.symm)
  have e5 : ("gameOver" == newState) = false := beq_false_of_ne (fun e => h5 e.symm)
  simp only [State.ofValue, State.values, List.find?_cons, List.find?_nil, State.value,
    e1, e2, e3, e4, e5]

/-- C14. For a requested value that is none of `'loading'`, `'start'`,
`'playing'`, `'paused'`, `'gameOver'`, `changeState` returns false and the
manager is unchanged: same current and previous state, and nothing added to the
history of side-effecting calls (no exit or enter action, no callback). -/
theorem changeState_rejects_unrecognised (sm : GameStateManager) (newState : String)
    (throws : Effect → Bool)
    (h : newState ∉ ["loading", "start", "playing", "paused", "gameOver"]) :
    (sm.changeState newState throws).1 = false ∧
    (sm.changeState newState throws).2 = sm ∧
    (sm.changeState newState throws).2.currentState = sm.currentState ∧
    (sm.changeState newState throws).2.previousState = sm.previousState ∧
    (sm.changeState newState throws).2.log = sm.log := by
  unfold GameStateManager.changeState
  rw [State.ofValue_eq_none newState h]
  exact ⟨rfl, rfl, rfl, rfl, rfl⟩

/-- Witness of C14: from Start, `changeState('bogus')` returns false and the
state is still Start. -/
theorem changeState_rejects_unrecognised_witness :
    ((managerIn State.START).changeState "bogus" noThrow).1 = false ∧
    ((managerIn State.START).changeState "bogus" noThrow).2.currentState = State.START :=
  have h := changeState_rejects_unrecognised (managerIn State.START) "bogus" noThrow (by decide)
  ⟨h.1, h.2.2.1⟩

/-- C15. `changeState(s)` for the recognised state `s` the manager is already
in returns true and leaves the manager unchanged: same current and previous
state, nothing added to the history of side-effecting calls. -/
theorem changeState_same_state (sm : GameStateManager) (throws : Effect → Bool) :
    (sm.changeState sm.currentState.value throws).1 = true ∧
    (sm.changeState sm.currentState.value throws).2 = sm ∧
    (sm.changeState sm.currentState.value throws).2.currentState = sm.currentState ∧
    (sm.changeState sm.currentState.value throws).2.previousState = sm.previousState ∧
    (sm.changeState sm.currentState.value throws).2.log = sm.log := by
  unfold GameStateManager.changeState
  rw [State.ofValue_value]
  simp only [if_true, and_self]

/-- C16. For a recognised state `t` other than the current state `s`,
`changeState(t)` returns true and ends with `currentState = t` and
`previousState = s` whichever of its side-effecting calls throw; the calls it
makes are, in this order, the exit action of `s`, the enter action of `t`, the
callback with `(t, s)` (once, when a callback function is registered) and the
`gameStateChange` event. -/
theorem changeState_commits (sm : GameStateManager) (t : State) (throws : Effect → Bool)
    (hne : sm.currentState ≠ t) :
    (sm.changeState t.value throws).1 = true ∧
    (sm.changeState t.value throws).2.currentState = t ∧
    (sm.changeState t.value throws).2.previousState = some sm.currentState ∧
    (sm.changeState t.value throws).2.hasCallback = sm.hasCallback ∧
    (sm.changeState t.value throws).2.log =
      sm.log ++
        [(Effect.exit sm.currentState, throws (Effect.exit sm.currentState)),
         (Effect.enter t, throws (Effect.enter t))] ++
        (if sm.hasCallback then
          [(Effect.callback t sm.currentState, throws (Effect.callback t sm.currentState))]
         else []) ++
        [(Effect.event sm.currentState t, throws (Effect.event sm.currentState t))] := by
  unfold GameStateManager.changeState
  rw [State.ofValue_value]
  simp only [hne, if_false, GameStateManager.attempt]
  cases hcb : sm.hasCallback <;> simp

/-- Witness of C16: from Start to Playing with every side-effecting call
throwing. -/
theorem changeState_commits_witness :
    (managerIn State.START).currentState ≠ State.PLAYING ∧
    ((managerIn State.START).changeState "playing" allThrow).1 = true ∧
    ((managerIn State.START).changeState "playing" allThrow).2.currentState = State.PLAYING ∧
    ((managerIn State.START).changeState "playing" allThrow).2.previousState
      = some State.START :=
  have hne : (managerIn State.START).currentState ≠ State.PLAYING := by decide
  have h := changeState_commits (managerIn State.START) State.PLAYING allThrow hne
  ⟨hne, h.1, h.2.1, h.2.2.1⟩

/-! ### Score system -/

theorem finalizeScore_eq (s : ScoreSystem) :
    s.finalizeScore =
      if s.score > s.highScore then
        (true, { s with highScore := s.score, storage := some s.score })
      else (false, s) := by
  unfold ScoreSystem.finalizeScore
  by_cases h : s.score > s.highScore
  · simp only [h, decide_True, if_true, ScoreSystem.saveHighScore]
  · simp only [h, decide_False, Bool.false_eq_true, if_false]

/-- C17. `finalizeScore()` returns true exactly when the current score is above
the high score, leaves the high score at the maximum of the two, writes the new
high score to storage exactly when it returns true (storage is untouched
otherwise) and leaves the current score unchanged. -/
theorem finalizeScore_spec (s : ScoreSystem) :
    (s.finalizeScore.1 = true ↔ s.score > s.highScore) ∧
    s.finalizeScore.2.highScore = max s.score s.highScore ∧
    (s.finalizeScore.1 = true → s.finalizeScore.2.storage = some s.finalizeScore.2.highScore) ∧
    (s.finalizeScore.1 = false → s.finalizeScore.2.storage = s.storage) ∧
    s.finalizeScore.2.score = s.score := by
  rw [finalizeScore_eq]
  by_cases h : s.score > s.highScore
  · rw [if_pos h]
    refine ⟨⟨fun _ => h, fun _ => rfl⟩, (max_eq_left (le_of_lt h)).symm, fun _ => rfl, ?_, rfl⟩
    intro hf
    cases hf
  · rw [if_neg h]
    refine ⟨⟨?_, fun hh => absurd hh h⟩, (max_eq_right (not_lt.1 h)).symm, ?_, fun _ => rfl, rfl⟩
    · intro hf
      cases hf
    · intro hf
      cases hf

theorem highScore_call (s : ScoreSystem) (c : ScoreCall) :
    s.highScore ≤ (s.call c).highScore ∧
    (ScoreSystem.loadHighScore s.storage = s.highScore →
      ScoreSystem.loadHighScore (s.call c).storage = (s.call c).highScore) := by
  cases c with
  | addScore points =>
    simp only [ScoreSystem.call, ScoreSystem.addScore]
    split_ifs
    · exact ⟨le_refl _, id⟩
    · exact ⟨le_refl _, id⟩
  | reset => exact ⟨le_refl _, id⟩
  | finalizeScore =>
    simp only [ScoreSystem.call, finalizeScore_eq]
    split_ifs with h
    · exact ⟨le_of_lt h, fun _ => rfl⟩
    · exact ⟨le_refl _, id⟩

theorem highScore_calls (cs : List ScoreCall) (s : ScoreSystem) :
    s.highScore ≤ (s.calls cs).highScore ∧
    (ScoreSystem.loadHighScore s.storage = s.highScore →
      ScoreSystem.loadHighScore (s.calls cs).storage = (s.calls cs).highScore) := by
  induction cs generalizing s with
  | nil => exact ⟨le_refl _, id⟩
  | cons c rest ih =>
    have h1 := highScore_call s c
    have h2 := ih (s.call c)
    exact ⟨le_trans h1.1 h2.1, fun h => h2.2 (h1.2 h)⟩

/-- C18. High-score durability: over any sequence of `addScore`, `reset` and
`finalizeScore` calls the high score does not decrease; `addScore` and `reset`
leave it unchanged and `reset` changes the current score (to 0) only; and for a
score system built from storage the stored value stays the high score, so a
score system built later from that storage starts with it. -/
theorem highScore_durable (s : ScoreSystem) (calls : List ScoreCall) :
    s.highScore ≤ (s.calls calls).highScore ∧
    (∀ points : ℤ, (s.addScore points).2.highScore = s.highScore) ∧
    s.reset.highScore = s.highScore ∧
    s.reset = { s with score := 0 } ∧
    (∀ storage : Option ℤ,
      (ScoreSystem.new ((ScoreSystem.new storage).calls calls).storage).highScore =
        ((ScoreSystem.new storage).calls calls).highScore) := by
  refine ⟨(highScore_calls calls s).1, ?_, rfl, rfl, ?_⟩
  · intro points
    simp only [ScoreSystem.addScore]
    split_ifs <;> rfl
  · intro storage
    exact (highScore_calls calls (ScoreSystem.new storage)).2 rfl

/-- Witness of C18: stored high score 30; a run finalised with score 50 makes
it 50; it is 50 after `reset()`; a following run finalised with score 10 leaves
it at 50. -/
theorem highScore_durable_witness :
    (ScoreSystem.new (some 30)).highScore = 30 ∧
    ((ScoreSystem.new (some 30)).calls
      [ScoreCall.addScore 50, ScoreCall.finalizeScore]).highScore = 50 ∧
    ((ScoreSystem.new (some 30)).calls
      [ScoreCall.addScore 50, ScoreCall.finalizeScore, ScoreCall.reset]).highScore = 50 ∧
    ((ScoreSystem.new (some 30)).calls
      [ScoreCall.addScore 50, ScoreCall.finalizeScore, ScoreCall.reset,
        ScoreCall.addScore 10, ScoreCall.finalizeScore]).highScore = 50 ∧
    (ScoreSystem.new (some 30)).highScore ≤
      ((ScoreSystem.new (some 30)).calls
        [ScoreCall.addScore 50, ScoreCall.finalizeScore, ScoreCall.reset,
          ScoreCall.addScore 10, ScoreCall.finalizeScore]).highScore :=
  ⟨rfl, by decide, by decide, by decide,
    (highScore_durable (ScoreSystem.new (some 30))
      [ScoreCall.addScore 50, ScoreCall.finalizeScore, ScoreCall.reset,
        ScoreCall.addScore 10, ScoreCall.finalizeScore]).1⟩

theorem addScore_eq (s : ScoreSystem) (n : ℤ) :
    s.addScore n =
      if n ≤ 0 then (false, s)
      else (true,
        { s with
          score := s.score + n
          scoreAnimationActive := true
          scoreAnimationTimer := s.scoreAnimationDuration
          scoreAnimationScale := 3 / 2 }) := by
  unfold ScoreSystem.addScore
  split_ifs <;> rfl

theorem score_call (s : ScoreSystem) (c : ScoreCall) (hc : 0 ≤ s.score) :
    0 ≤ (s.call c).score ∧ (c.keepsRun = true → s.score ≤ (s.call c).score) := by
  cases c with
  | addScore points =>
    simp only [ScoreSystem.call, addScore_eq]
    split_ifs with h
    · exact ⟨hc, fun _ => le_refl _⟩
    · simp only
      constructor
      · omega
      · intro _
        omega
  | reset =>
    refine ⟨le_refl _, ?_⟩
    intro h
    cases h
  | finalizeScore =>
    simp only [ScoreSystem.call, finalizeScore_eq]
    split_ifs <;> exact ⟨hc, fun _ => le_refl _⟩

theorem score_calls (cs : List ScoreCall) (s : ScoreSystem) (hc : 0 ≤ s.score) :
    0 ≤ (s.calls cs).score ∧
    ((∀ c ∈ cs, c.keepsRun = true) → s.score ≤ (s.calls cs).score) := by
  induction cs generalizing s with
  | nil => exact ⟨hc, fun _ => le_refl _⟩
  | cons c rest ih =>
    have h1 := score_call s c hc
    have h2 := ih (s.call c) h1.1
    refine ⟨h2.1, ?_⟩
    intro hk
    exact le_trans (h1.2 (hk c (List.mem_cons_self _ _)))
      (h2.2 (fun d hd => hk d (List.mem_cons_of_mem _ hd)))

/-- C19. For an integer `n` and a current score `c >= 0`: `addScore(n)` with
`n <= 0` returns false and changes nothing (score and animation fields
included); with `n > 0` it returns true, sets the score to `c + n` and starts
the emphasis animation (active, timer at its duration, scale 1.5).  Hence over
any sequence of `addScore`, `reset` and `finalizeScore` calls the score is never
negative, and over a sequence without `reset` it never decreases. -/
theorem addScore_spec (s : ScoreSystem) (n : ℤ) (hc : 0 ≤ s.score) :
    (n ≤ 0 → s.addScore n = (false, s)) ∧
    (0 < n →
      (s.addScore n).1 = true ∧ (s.addScore n).2.score = s.score + n ∧
      (s.addScore n).2.scoreAnimationActive = true ∧
      (s.addScore n).2.scoreAnimationTimer = s.scoreAnimationDuration ∧
      (s.addScore n).2.scoreAnimationScale = 3 / 2 ∧
      (s.addScore n).2.highScore = s.highScore) ∧
    (∀ calls : List ScoreCall, 0 ≤ (s.calls calls).score) ∧
    (∀ calls : List ScoreCall, (∀ c ∈ calls, c.keepsRun = true) →
      s.score ≤ (s.calls calls).score) := by
  rw [addScore_eq]
  refine ⟨?_, ?_, fun calls => (score_calls calls s hc).1, fun calls => (score_calls calls s hc).2⟩
  · intro hn
    rw [if_pos hn]
  · intro hn
    rw [if_neg (not_le.2 hn)]
    exact ⟨rfl, rfl, rfl, rfl, rfl, rfl⟩

/-- Witness of C19: on a fresh score system `addScore(0)` is refused and
`addScore(1)` gives score 1. -/
theorem addScore_spec_witness :
    0 ≤ (ScoreSystem.new none).score ∧
    (ScoreSystem.new none).addScore 0 = (false, ScoreSystem.new none) ∧
    ((ScoreSystem.new none).addScore 1).1 = true ∧
    ((ScoreSystem.new none).addScore 1).2.score = (ScoreSystem.new none).score + 1 :=
  have hc : 0 ≤ (ScoreSystem.new none).score := le_refl _
  have h := addScore_spec (ScoreSystem.new none) 1 hc
  have h0 := addScore_spec (ScoreSystem.new none) 0 hc
  ⟨hc, h0.1 (le_refl _), (h.2.1 (by decide)).1, (h.2.1 (by decide)).2.1⟩

/-! ### Gap position -/

/-- Counterexample to C20: on a canvas 300 px high (gap 160, ground 50) the
bounds are `minGapY = 80 > maxGapY = 10`, and the draw `r = 1/2` puts the gap at
45, below `minGapY` and above `maxGapY`. -/
theorem createPipe_gap_out_of_range :
    (PipeManager.new 450 300 50 gamePipeConfig 0).minGapY = 80 ∧
    (PipeManager.new 450 300 50 gamePipeConfig 0).maxGapY = 10 ∧
    ∃ pipe ∈ ((PipeManager.new 450 300 50 gamePipeConfig 0).createPipe midDraws).pipes,
      pipe.gapY = 45 ∧
      ¬ ((PipeManager.new 450 300 50 gamePipeConfig 0).minGapY ≤ pipe.gapY ∧
          pipe.gapY ≤ (PipeManager.new 450 300 50 gamePipeConfig 0).maxGapY) := by
  have hmin : (PipeManager.new 450 300 50 gamePipeConfig 0).minGapY = 80 := rfl
  have hmax : (PipeManager.new 450 300 50 gamePipeConfig 0).maxGapY = 10 := by
    norm_num [PipeManager.new, orDefault, gamePipeConfig]
  refine ⟨hmin, hmax, ?_⟩
  refine ⟨Pipe.new 450 45 160 (some 60) none 1, ?_, rfl, ?_⟩
  · norm_num [PipeManager.createPipe, PipeManager.new, orDefault, gamePipeConfig, midDraws,
      Pipe.new]
  · rw [hmin, hmax]
    norm_num [Pipe.new]

/-- C20, amended. When the manager's bounds satisfy `minGapY <= maxGapY` (after
construction or `resize` this is `canvasHeight >= pipeGap + groundHeight + 160`)
and the draw `r` is in `[0, 1)`, `createPipe` appends one pipe whose gap
position is `r*(maxGapY - minGapY) + minGapY` and lies in
`[minGapY, maxGapY]`. -/
theorem createPipe_gap_in_range (m : PipeManager) (rnd : Draws) (hr0 : 0 ≤ rnd.gap)
    (hr1 : rnd.gap < 1) (hrange : m.minGapY ≤ m.maxGapY) :
    ∃ pipe : Pipe, (m.createPipe rnd).pipes = m.pipes ++ [pipe] ∧
      pipe.gapY = rnd.gap * (m.maxGapY - m.minGapY) + m.minGapY ∧
      m.minGapY ≤ pipe.gapY ∧ pipe.gapY ≤ m.maxGapY := by
  obtain ⟨pipe, hpipes, hgap⟩ : ∃ pipe : Pipe,
      (m.createPipe rnd).pipes = m.pipes ++ [pipe] ∧
      pipe.gapY = rnd.gap * (m.maxGapY - m.minGapY) + m.minGapY :=
    ⟨_, rfl, rfl⟩
  refine ⟨pipe, hpipes, hgap, ?_, ?_⟩
  · rw [hgap]
    nlinarith [mul_nonneg hr0 (sub_nonneg.2 hrange)]
  · rw [hgap]
    nlinarith [mul_nonneg (sub_nonneg.2 (le_of_lt hr1)) (sub_nonneg.2 hrange)]

/-- Witness of C20, amended: the game manager on its 640 px canvas
(`minGapY = 80 <= maxGapY = 350`) with the draw `r = 1/2`. -/
theorem createPipe_gap_in_range_witness :
    (managerWith []).minGapY ≤ (managerWith []).maxGapY ∧
    ∃ pipe : Pipe, ((managerWith []).createPipe midDraws).pipes = (managerWith []).pipes ++ [pipe] ∧
      pipe.gapY = midDraws.gap * ((managerWith []).maxGapY - (managerWith []).minGapY)
        + (managerWith []).minGapY ∧
      (managerWith []).minGapY ≤ pipe.gapY ∧ pipe.gapY ≤ (managerWith []).maxGapY :=
  have hrange : (managerWith []).minGapY ≤ (managerWith []).maxGapY := by
    norm_num [managerWith, PipeManager.new, orDefault, gamePipeConfig]
  ⟨hrange, createPipe_gap_in_range (managerWith []) midDraws (by norm_num [midDraws])
    (by norm_num [midDraws]) hrange⟩

/-! ### Resize -/

theorem update_frame (m : PipeManager) (dt : ℚ) (rnd : Draws) :
    ∃ (pipes : List Pipe) (timer : ℚ) (pipeCount : Nat),
      m.update dt rnd = { m with pipes := pipes, timer := timer, pipeCount := pipeCount } := by
  unfold PipeManager.update
  by_cases h : m.timer + dt ≥ m.pipeSpawnInterval
  · simp only [h, if_true, PipeManager.createPipe]
    exact ⟨_, _, _, rfl⟩
  · simp only [h, if_false]
    exact ⟨_, _, _, rfl⟩

theorem op_frame (m : PipeManager) (o : ManagerOp) :
    (m.op o).minGapY = m.minGapY ∧ (m.op o).pipeGap = m.pipeGap ∧
    (m.op o).groundHeight = m.groundHeight ∧ (m.op o).pipeSpeed = m.pipeSpeed ∧
    (m.op o).pipeSpawnInterval = m.pipeSpawnInterval ∧
    (m.op o).maxGapY - (m.op o).canvasHeight = m.maxGapY - m.canvasHeight ∨
    ∃ w h, o = ManagerOp.resize w h := by
  cases o with
  | update dt rnd =>
    left
    obtain ⟨pipes, timer, pipeCount, h⟩ := update_frame m dt rnd
    simp only [PipeManager.op, h, and_self]
  | checkScoring b => exact Or.inl ⟨rfl, rfl, rfl, rfl, rfl, rfl⟩
  | resize w h => exact Or.inr ⟨w, h, rfl⟩
  | reset => exact Or.inl ⟨rfl, rfl, rfl, rfl, rfl, rfl⟩

theorem spawnBounds_op (m : PipeManager) (o : ManagerOp)
    (h : m.minGapY = 80 ∧ m.maxGapY = m.canvasHeight - m.pipeGap - m.groundHeight - 80) :
    (m.op o).minGapY = 80 ∧
    (m.op o).maxGapY = (m.op o).canvasHeight - (m.op o).pipeGap - (m.op o).groundHeight - 80 := by
  rcases op_frame m o with ⟨h1, h2, h3, _, _, h6⟩ | ⟨w, hh, rfl⟩
  · rw [h1, h2, h3]
    refine ⟨h.1, ?_⟩
    have := h.2
    linarith
  · exact ⟨h.1, rfl⟩

theorem spawnBounds_ops (os : List ManagerOp) (m : PipeManager)
    (h : m.minGapY = 80 ∧ m.maxGapY = m.canvasHeight - m.pipeGap - m.groundHeight - 80) :
    (m.ops os).minGapY = 80 ∧
    (m.ops os).maxGapY =
      (m.ops os).canvasHeight - (m.ops os).pipeGap - (m.ops os).groundHeight - 80 := by
  induction os generalizing m with
  | nil => exact h
  | cons o rest ih => exact ih (m.op o) (spawnBounds_op m o h)

/-- C21. Spawn bounds and resize: a constructed manager has `minGapY = 80` and
`maxGapY = canvasHeight - pipeGap - groundHeight - 80`, and so has every state
reached from it by `update`, `checkScoring`, `resize` and `reset` calls, for its
current canvas height; on any manager `resize(w, h)` writes `canvasWidth`,
`canvasHeight` and `maxGapY` only, so the live pipes, the timer and the spawn
counter are as before. -/
theorem resize_spawn_bounds (cw ch gh : ℚ) (config : PipeConfig) (adImages : Nat)
    (os : List ManagerOp) (m : PipeManager) (w h : ℚ) :
    ((PipeManager.new cw ch gh config adImages).ops os).minGapY = 80 ∧
    ((PipeManager.new cw ch gh config adImages).ops os).maxGapY =
      ((PipeManager.new cw ch gh config adImages).ops os).canvasHeight
        - ((PipeManager.new cw ch gh config adImages).ops os).pipeGap
        - ((PipeManager.new cw ch gh config adImages).ops os).groundHeight - 80 ∧
    (PipeManager.new cw ch gh config adImages).maxGapY =
      ch - (PipeManager.new cw ch gh config adImages).pipeGap - gh - 80 ∧
    m.resize w h =
      { m with canvasWidth := w, canvasHeight := h,
               maxGapY := h - m.pipeGap - m.groundHeight - 80 } ∧
    (m.resize w h).pipes = m.pipes ∧ (m.resize w h).timer = m.timer ∧
    (m.resize w h).pipeCount = m.pipeCount ∧ (m.resize w h).minGapY = m.minGapY := by
  have h0 := spawnBounds_ops os (PipeManager.new cw ch gh config adImages) ⟨rfl, rfl⟩
  exact ⟨h0.1, h0.2, rfl, rfl, rfl, rfl, rfl, rfl⟩

/-! ### Pause, resume and the idle tick -/

theorem pauseGame_currentState (g : FlappyBirdGame) (throws : Effect → Bool) :
    (g.pauseGame throws).stateManager.currentState =
      if g.stateManager.currentState = State.PLAYING then State.PAUSED
      else g.stateManager.currentState := by
  unfold FlappyBirdGame.pauseGame
  by_cases h : g.stateManager.currentState = State.PLAYING
  · simp only [GameStateManager.isState, h, decide_True, if_true, changeState_currentState]
  · simp only [GameStateManager.isState, h, decide_False, Bool.false_eq_true, if_false]

theorem resumeGame_currentState (g : FlappyBirdGame) (throws : Effect → Bool) :
    (g.resumeGame throws).stateManager.currentState =
      if g.stateManager.currentState = State.PAUSED then State.PLAYING
      else g.stateManager.currentState := by
  unfold FlappyBirdGame.resumeGame
  by_cases h : g.stateManager.currentState = State.PAUSED
  · simp only [GameStateManager.isState, h, decide_True, if_true, changeState_currentState]
  · simp only [GameStateManager.isState, h, decide_False, Bool.false_eq_true, if_false]

/-- C22. Pause and resume gating: `pauseGame` changes the state exactly when the
current state is Playing, and then to Paused; `resumeGame` changes it exactly
when the current state is Paused, and then to Playing; called in any other
state each returns the game unchanged. -/
theorem pause_resume_gating (g : FlappyBirdGame) (throws : Effect → Bool) :
    ((g.pauseGame throws).stateManager.currentState ≠ g.stateManager.currentState ↔
      g.stateManager.currentState = State.PLAYING) ∧
    (g.stateManager.currentState = State.PLAYING →
      (g.pauseGame throws).stateManager.currentState = State.PAUSED) ∧
    (g.stateManager.currentState ≠ State.PLAYING → g.pauseGame throws = g) ∧
    ((g.resumeGame throws).stateManager.currentState ≠ g.stateManager.currentState ↔
      g.stateManager.currentState = State.PAUSED) ∧
    (g.stateManager.currentState = State.PAUSED →
      (g.resumeGame throws).stateManager.currentState = State.PLAYING) ∧
    (g.stateManager.currentState ≠ State.PAUSED → g.resumeGame throws = g) := by
  rw [pauseGame_currentState, resumeGame_currentState]
  refine ⟨?_, ?_, ?_, ?_, ?_, ?_⟩
  · by_cases h : g.stateManager.currentState = State.PLAYING
    · simp [h]
    · simp [h]
  · intro h
    simp [h]
  · intro h
    simp only [FlappyBirdGame.pauseGame, GameStateManager.isState, h, decide_False,
      Bool.false_eq_true, if_false]
  · by_cases h : g.stateManager.currentState = State.PAUSED
    · simp [h]
    · simp [h]
  · intro h
    simp [h]
  · intro h
    simp only [FlappyBirdGame.resumeGame, GameStateManager.isState, h, decide_False,
      Bool.false_eq_true, if_false]

/-- C24. Only Playing drives the simulation: in a state other than Playing
`update(dt)` returns the game as it is, so the bird, the pipe manager, the
score and the state machine are unchanged. -/
theorem update_idle_outside_playing (g : FlappyBirdGame) (dt : ℚ) (rnd : Draws)
    (throws : Effect → Bool) (h : g.stateManager.currentState ≠ State.PLAYING) :
    g.update dt rnd throws = g ∧
    (g.update dt rnd throws).bird = g.bird ∧
    (g.update dt rnd throws).pipeManager = g.pipeManager ∧
    (g.update dt rnd throws).scoreSystem.score = g.scoreSystem.score ∧
    (g.update dt rnd throws).stateManager = g.stateManager := by
  have hu : g.update dt rnd throws = g := by
    simp only [FlappyBirdGame.update, GameStateManager.isState, h, decide_False, Bool.not_false,
      if_true]
  rw [hu]
  exact ⟨rfl, rfl, rfl, rfl, rfl⟩

/-- Witness of C24: a paused game with a pipe on screen, over a one-second
tick. -/
theorem update_idle_outside_playing_witness :
    ({ gameAt 300 [pipeAt 200 100 1] with stateManager := managerIn State.PAUSED }
        : FlappyBirdGame).stateManager.currentState ≠ State.PLAYING ∧
    ({ gameAt 300 [pipeAt 200 100 1] with stateManager := managerIn State.PAUSED }
        : FlappyBirdGame).update 1 midDraws noThrow =
      { gameAt 300 [pipeAt 200 100 1] with stateManager := managerIn State.PAUSED } :=
  have h : ({ gameAt 300 [pipeAt 200 100 1] with stateManager := managerIn State.PAUSED }
      : FlappyBirdGame).stateManager.currentState ≠ State.PLAYING := by decide
  ⟨h, (update_idle_outside_playing _ 1 midDraws noThrow h).1⟩

/-! ### The two pipe tests, and scoring against collision -/

theorem checkCollisionLoop_eq_false (bb : Bounds) (pipes : List Pipe) :
    PipeManager.checkCollisionLoop bb pipes = false ↔ ∀ p ∈ pipes, ¬ hitsPipe bb p := by
  induction pipes with
  | nil => simp [PipeManager.checkCollisionLoop]
  | cons p rest ih =>
    rw [List.forall_mem_cons, ← ih]
    simp only [PipeManager.checkCollisionLoop, Pipe.getBounds, hitsPipe]
    by_cases h1 : bb.right > p.x ∧ bb.left < p.x + p.width
    · by_cases h2 : bb.top < p.gapY
      · simp [h1, h2]
      · by_cases h3 : bb.bottom > p.gapY + p.gapHeight
        · simp [h1, h2, h3]
        · simp only [h1, h2, h3, if_true, if_false]
          constructor
          · intro h
            refine ⟨?_, h⟩
            rintro ⟨_, _, h4 | h4⟩
            · exact h4
            · exact h4
          · intro h
            exact h.2
    · simp only [h1, if_false]
      constructor
      · intro h
        refine ⟨?_, h⟩
        intro h4
        exact h1 ⟨h4.1, h4.2.1⟩
      · intro h
        exact h.2

/-- C30. The two pipe-collision implementations agree:
`PipeManager.checkCollision(b)` returns true exactly when
`CollisionSystem.checkPipeCollision(b, pipeManager)` returns an event. -/
theorem checkCollision_agrees (cs : CollisionSystem) (m : PipeManager) (b : Bounds) :
    m.checkCollision b = true ↔ ∃ c, cs.checkPipeCollision b m = some c := by
  unfold PipeManager.checkCollision CollisionSystem.checkPipeCollision
  have h1 := checkCollisionLoop_eq_false b m.pipes
  have h2 := checkPipeCollisionLoop_eq_none b m.pipes
  constructor
  · intro ht
    cases hc : CollisionSystem.checkPipeCollisionLoop b m.pipes with
    | some c => exact ⟨c, rfl⟩
    | none =>
      rw [h1.2 (h2.1 hc)] at ht
      cases ht
  · rintro ⟨c, hc⟩
    cases hb : PipeManager.checkCollisionLoop b m.pipes with
    | true => rfl
    | false =>
      rw [h2.2 (h1.1 hb)] at hc
      cases hc

theorem checkPipeCollisionLoop_pipe (bb : Bounds) (pipes : List Pipe) (c : Collision)
    (h : CollisionSystem.checkPipeCollisionLoop bb pipes = some c) :
    ∃ q ∈ pipes, c.pipe = some q ∧ hitsPipe bb q := by
  induction pipes with
  | nil => simp [CollisionSystem.checkPipeCollisionLoop] at h
  | cons p rest ih =>
    simp only [CollisionSystem.checkPipeCollisionLoop, Pipe.getBounds] at h
    split_ifs at h with h1 h2 h3
    · simp only [Option.some.injEq] at h
      exact ⟨p, List.mem_cons_self _ _, by rw [← h], h1.1, h1.2, Or.inl h2⟩
    · simp only [Option.some.injEq] at h
      exact ⟨p, List.mem_cons_self _ _, by rw [← h], h1.1, h1.2, Or.inr h3⟩
    · obtain ⟨q, hq, hc, hh⟩ := ih h
      exact ⟨q, List.mem_cons_of_mem _ hq, hc, hh⟩
    · obtain ⟨q, hq, hc, hh⟩ := ih h
      exact ⟨q, List.mem_cons_of_mem _ hq, hc, hh⟩

theorem not_hitsPipe_of_passed (b : Bounds) (p : Pipe) (h : p.x + p.width < b.left) :
    ¬ hitsPipe b p := by
  rintro ⟨_, h2, _⟩
  exact lt_irrefl _ (lt_trans h h2)

theorem call_pipeSpeed (b : Bounds) (m : PipeManager) (c : ManagerCall) :
    (m.call b c).pipeSpeed = m.pipeSpeed := by
  cases c with
  | update dt rnd =>
    obtain ⟨pipes, timer, pipeCount, h⟩ := update_frame m dt rnd
    simp only [PipeManager.call, h]
  | checkScoring => rfl

theorem scoredPassed_call (b : Bounds) (m : PipeManager) (c : ManagerCall)
    (hspeed : 0 ≤ m.pipeSpeed) (hc : c.backwards = false)
    (hinv : ∀ p ∈ m.pipes, p.scored = true → p.x + p.width < b.left) :
    ∀ q ∈ (m.call b c).pipes, q.scored = true → q.x + q.width < b.left := by
  intro q hq hs
  cases c with
  | update dt rnd =>
    have hdt : 0 ≤ dt := by
      simp only [ManagerCall.backwards, decide_eq_false_iff_not, not_lt] at hc
      exact hc
    rcases mem_update_pipes m dt rnd q hq with ⟨p, hp, rfl⟩ | ⟨_, _, hns⟩
    · have h1 := hinv p hp hs
      have h2 : 0 ≤ m.pipeSpeed * dt := mul_nonneg hspeed hdt
      simp only [Pipe.update]
      linarith
    · rw [hs] at hns
      cases hns
  | checkScoring =>
    obtain ⟨p, hp, _, hx, hw, hsc⟩ := mem_checkScoring_pipes m b q hq
    rw [hx, hw]
    rcases hsc.1 hs with h1 | h1
    · exact hinv p hp h1
    · exact h1

theorem scoredPassed_calls (b : Bounds) (cs : List ManagerCall) (m : PipeManager)
    (hspeed : 0 ≤ m.pipeSpeed) (hcs : ∀ c ∈ cs, c.backwards = false)
    (hinv : ∀ p ∈ m.pipes, p.scored = true → p.x + p.width < b.left) :
    ∀ q ∈ (m.calls b cs).pipes, q.scored = true → q.x + q.width < b.left := by
  induction cs generalizing m with
  | nil => exact hinv
  | cons c rest ih =>
    refine ih (m.call b c) ?_ (fun d hd => hcs d (List.mem_cons_of_mem _ hd)) ?_
    · rw [call_pipeSpeed]
      exact hspeed
    · exact scoredPassed_call b m c hspeed (hcs c (List.mem_cons_self _ _)) hinv

/-- C29. Scoring and pipe collision exclude each other per pipe.  (1) A pipe
with `x + width < b.left`, the test by which `checkScoring(b)` marks it, fails
the overlap test of `checkPipeCollision` for `b`, and no event returned for `b`
names it.  (2) In a manager with `pipeSpeed >= 0` whose scored pipes are passed
(as when nothing is scored yet), after any sequence of `update(dt)` with
`dt >= 0` and `checkScoring(b)` every scored live pipe is still passed, and for
any bird bounds with the same left edge it fails the overlap test and is named
by no returned event. -/
theorem scoring_excludes_collision (cs : CollisionSystem) (b : Bounds) (m : PipeManager)
    (calls : List ManagerCall) (hspeed : 0 ≤ m.pipeSpeed)
    (hcalls : ∀ c ∈ calls, c.backwards = false)
    (hinv : ∀ p ∈ m.pipes, p.scored = true → p.x + p.width < b.left) :
    (∀ p : Pipe, p.x + p.width < b.left →
      ¬ (b.right > p.x ∧ b.left < p.x + p.width ∧
          (b.top < p.gapY ∨ b.bottom > p.gapY + p.gapHeight)) ∧
      ∀ (pm : PipeManager) (c : Collision), cs.checkPipeCollision b pm = some c →
        c.pipe ≠ some p) ∧
    (∀ q ∈ (m.calls b calls).pipes, q.scored = true →
      q.x + q.width < b.left ∧
      ∀ b2 : Bounds, b2.left = b.left →
        ¬ (b2.right > q.x ∧ b2.left < q.x + q.width ∧
            (b2.top < q.gapY ∨ b2.bottom > q.gapY + q.gapHeight)) ∧
        ∀ c : Collision, cs.checkPipeCollision b2 (m.calls b calls) = some c →
          c.pipe ≠ some q) := by
  have key : ∀ (b1 : Bounds) (p : Pipe), p.x + p.width < b1.left →
      ¬ hitsPipe b1 p ∧ ∀ (pm : PipeManager) (c : Collision),
        cs.checkPipeCollision b1 pm = some c → c.pipe ≠ some p := by
    intro b1 p hp
    refine ⟨not_hitsPipe_of_passed b1 p hp, ?_⟩
    intro pm c hc hcp
    obtain ⟨q, _, hq, hh⟩ := checkPipeCollisionLoop_pipe b1 pm.pipes c hc
    rw [hq, Option.some.injEq] at hcp
    rw [hcp] at hh
    exact not_hitsPipe_of_passed b1 p hp hh
  refine ⟨fun p hp => key b p hp, ?_⟩
  intro q hq hs
  have hpass := scoredPassed_calls b calls m hspeed hcalls hinv q hq hs
  refine ⟨hpass, ?_⟩
  intro b2 hb2
  have h2 : q.x + q.width < b2.left := by rw [hb2]; exact hpass
  exact ⟨(key b2 q h2).1, fun c hc => (key b2 q h2).2 _ c hc⟩

/-- Witness of C29: one unscored pipe of the game ahead of the bird; after
half a second it has passed and `checkScoring` marks it. -/
theorem scoring_excludes_collision_witness :
    0 ≤ (managerWith [pipeAt 100 100 1]).pipeSpeed ∧
    ∀ q ∈ ((managerWith [pipeAt 100 100 1]).calls (birdAt 300).getBounds
        [ManagerCall.update (1 / 2) midDraws, ManagerCall.checkScoring]).pipes,
      q.scored = true → q.x + q.width < (birdAt 300).getBounds.left :=
  have hspeed : 0 ≤ (managerWith [pipeAt 100 100 1]).pipeSpeed := by
    norm_num [managerWith, PipeManager.new, orDefault, gamePipeConfig]
  have h := (scoring_excludes_collision gameCollisionSystem (birdAt 300).getBounds
    (managerWith [pipeAt 100 100 1])
    [ManagerCall.update (1 / 2) midDraws, ManagerCall.checkScoring] hspeed
    (by
      intro c hc
      simp only [List.mem_cons, List.mem_singleton, List.not_mem_nil, or_false] at hc
      rcases hc with rfl | rfl
      · norm_num [ManagerCall.backwards]
      · rfl)
    (by simp [managerWith, pipeAt, Pipe.new])).2
  ⟨hspeed, fun q hq hs => (h q hq hs).1⟩

/-! ### Scoring in a collision tick, and the size of one score -/

/-- C23, the code at a failing input.  One tick of 0.1 s on `lateScoreGame`:
the bird drops below the ground line, so the collision check returns a ground
event and the state becomes GameOver, and in the same tick the pipe, which has
now passed the bird, is marked scored and the score goes from 0 to 1, after
`finalizeScore` has already run. -/
theorem update_scores_after_collision :
    lateScoreGame.stateManager.currentState = State.PLAYING ∧
    (∃ c, (lateScoreGame.collisionSystem.checkCollisions (lateScoreGame.bird.update (1 / 10))
        (lateScoreGame.pipeManager.update (1 / 10) midDraws) lateScoreGame.canvasHeight).1
          = some c ∧ c.type = CollisionType.ground) ∧
    (lateScoreGame.update (1 / 10) midDraws noThrow).stateManager.currentState
      = State.GAME_OVER ∧
    lateScoreGame.scoreSystem.score = 0 ∧
    (lateScoreGame.update (1 / 10) midDraws noThrow).scoreSystem.score = 1 ∧
    lateScoreGame.pipeManager.pipes.map (fun p => p.scored) = [false] ∧
    (lateScoreGame.update (1 / 10) midDraws noThrow).pipeManager.pipes.map (fun p => p.scored)
      = [true] := by
  have hcol : (lateScoreGame.collisionSystem.checkCollisions (lateScoreGame.bird.update (1 / 10))
      (lateScoreGame.pipeManager.update (1 / 10) midDraws) lateScoreGame.canvasHeight).1
        = some ⟨CollisionType.ground, ⟨150, 590⟩, none⟩ := by
    norm_num [lateScoreGame, gameAt, birdAt, pipeAt, managerWith,
      Bird.new, Bird.update, Bird.getBounds, Pipe.new, Pipe.update, Pipe.isOffScreen,
      PipeManager.new, PipeManager.update,
      CollisionSystem.checkCollisions, CollisionSystem.checkGroundCollision,
      gameCollisionSystem, CollisionSystem.new, orDefault, gameBirdConfig, gamePipeConfig,
      midDraws]
  refine ⟨rfl, ⟨_, hcol, rfl⟩, ?_, rfl, ?_, rfl, ?_⟩
  · rw [update_currentState lateScoreGame (1 / 10) midDraws noThrow rfl, hcol]
    rfl
  · norm_num [lateScoreGame, FlappyBirdGame.update, FlappyBirdGame.updateBird,
      FlappyBirdGame.updatePipes, FlappyBirdGame.checkCollisions, FlappyBirdGame.updateScoring,
      FlappyBirdGame.gameOver, GameStateManager.isState, gameAt, birdAt, pipeAt, managerWith,
      Bird.new, Bird.update, Bird.getBounds, Pipe.new, Pipe.update, Pipe.isOffScreen,
      PipeManager.new, PipeManager.update, PipeManager.checkScoring,
      PipeManager.checkScoringLoop,
      CollisionSystem.checkCollisions, CollisionSystem.checkGroundCollision,
      CollisionSystem.startCollisionEffect, gameCollisionSystem, CollisionSystem.new,
      ScoreSystem.new, ScoreSystem.addScore, ScoreSystem.finalizeScore,
      ScoreSystem.updateAnimation, ScoreSystem.startScoreAnimation, ScoreSystem.loadHighScore,
      GameStateManager.new, orDefault, gameBirdConfig, gamePipeConfig, midDraws]
  · norm_num [lateScoreGame, FlappyBirdGame.update, FlappyBirdGame.updateBird,
      FlappyBirdGame.updatePipes, FlappyBirdGame.checkCollisions, FlappyBirdGame.updateScoring,
      FlappyBirdGame.gameOver, GameStateManager.isState, gameAt, birdAt, pipeAt, managerWith,
      Bird.new, Bird.update, Bird.getBounds, Pipe.new, Pipe.update, Pipe.isOffScreen,
      PipeManager.new, PipeManager.update, PipeManager.checkScoring,
      PipeManager.checkScoringLoop,
      CollisionSystem.checkCollisions, CollisionSystem.checkGroundCollision,
      CollisionSystem.startCollisionEffect, gameCollisionSystem, CollisionSystem.new,
      ScoreSystem.new, ScoreSystem.addScore, ScoreSystem.finalizeScore,
      ScoreSystem.updateAnimation, ScoreSystem.startScoreAnimation, ScoreSystem.loadHighScore,
      GameStateManager.new, orDefault, gameBirdConfig, gamePipeConfig, midDraws]

/-- C26, the code at a failing input.  After a frame hitch of 3.5 s the live
pipes of `managerAfterHitch` are at x = 30, 300 and 570, all unscored; for a
bird with left edge 380 the first two have passed, and `checkScoring` returns
2. -/
theorem checkScoring_returns_two :
    managerAfterHitch.pipes.map (fun p => p.x) = [30, 300, 570] ∧
    managerAfterHitch.pipes.map (fun p => p.scored) = [false, false, false] ∧
    (managerAfterHitch.checkScoring wideBounds).1 = 2 := by
  refine ⟨?_, ?_, ?_⟩
  · norm_num [managerAfterHitch, wideBounds, PipeManager.calls, PipeManager.call,
      PipeManager.update, PipeManager.createPipe, PipeManager.new, orDefault, gamePipeConfig,
      midDraws, Pipe.new, Pipe.update, Pipe.isOffScreen]
  · norm_num [managerAfterHitch, wideBounds, PipeManager.calls, PipeManager.call,
      PipeManager.update, PipeManager.createPipe, PipeManager.new, orDefault, gamePipeConfig,
      midDraws, Pipe.new, Pipe.update, Pipe.isOffScreen]
  · norm_num [managerAfterHitch, wideBounds, PipeManager.calls, PipeManager.call,
      PipeManager.update, PipeManager.createPipe, PipeManager.new, orDefault, gamePipeConfig,
      midDraws, Pipe.new, Pipe.update, Pipe.isOffScreen, PipeManager.checkScoring,
      PipeManager.checkScoringLoop]

/-! ### The transitions the game makes -/

theorem startGame_currentState (g : FlappyBirdGame) (throws : Effect → Bool) :
    (g.startGame throws).stateManager.currentState = State.PLAYING := by
  simp only [FlappyBirdGame.startGame, FlappyBirdGame.initGameObjects, changeState_currentState]

theorem resetGame_currentState (g : FlappyBirdGame) (throws : Effect → Bool) :
    (g.resetGame throws).stateManager.currentState = State.PLAYING := by
  unfold FlappyBirdGame.resetGame
  exact startGame_currentState _ throws

theorem loadAssetsOnComplete_currentState (g : FlappyBirdGame) (throws : Effect → Bool) :
    (g.loadAssetsOnComplete throws).stateManager.currentState = State.START := by
  simp only [FlappyBirdGame.loadAssetsOnComplete, FlappyBirdGame.showStartScreen,
    FlappyBirdGame.initGameObjects, changeState_currentState]

theorem update_changes_state (g : FlappyBirdGame) (dt : ℚ) (rnd : Draws)
    (throws : Effect → Bool)
    (hne : (g.update dt rnd throws).stateManager.currentState ≠ g.stateManager.currentState) :
    g.stateManager.currentState = State.PLAYING ∧
    (g.update dt rnd throws).stateManager.currentState = State.GAME_OVER := by
  by_cases hp : g.stateManager.currentState = State.PLAYING
  · refine ⟨hp, ?_⟩
    rw [update_currentState g dt rnd throws hp] at hne ⊢
    split_ifs at hne ⊢ with h
    · exact absurd hp.symm hne
    · rfl
  · exfalso
    apply hne
    simp only [FlappyBirdGame.update, GameStateManager.isState, hp, decide_False, Bool.not_false,
      if_true]

/-- Counterexample to C25: `resetGame` in state GameOver ends in Playing, and
GameOver → Playing is not an edge of the specified graph (whose only edge out
of GameOver leads to Start). -/
theorem restart_leads_to_playing :
    (gameIn State.GAME_OVER).stateManager.currentState = State.GAME_OVER ∧
    ((gameIn State.GAME_OVER).perform noThrow GameOp.resetGame).stateManager.currentState
      = State.PLAYING ∧
    specTransition State.GAME_OVER State.PLAYING = false ∧
    ((gameIn State.GAME_OVER).perform noThrow GameOp.resetGame).stateManager.currentState
      ≠ State.START :=
  ⟨rfl, resetGame_currentState _ _, rfl, by
    rw [show ((gameIn State.GAME_OVER).perform noThrow GameOp.resetGame)
      = (gameIn State.GAME_OVER).resetGame noThrow from rfl, resetGame_currentState]
    decide⟩

/-- C25, amended.  Whatever the current state `s`: the asset-load completion
ends in Start; `startGame` and `resetGame` end in Playing (so a restart from
GameOver leads to Playing); `pauseGame` changes the state only from Playing, to
Paused; `resumeGame` only from Paused, to Playing; `update` only from Playing,
to GameOver.  Hence every change of state by one of these operations is to
Start, to Playing, or from Playing to Paused or GameOver. -/
theorem state_changes_by_operation (g : FlappyBirdGame) (throws : Effect → Bool) :
    (g.loadAssetsOnComplete throws).stateManager.currentState = State.START ∧
    (g.startGame throws).stateManager.currentState = State.PLAYING ∧
    (g.resetGame throws).stateManager.currentState = State.PLAYING ∧
    (g.pauseGame throws).stateManager.currentState =
      (if g.stateManager.currentState = State.PLAYING then State.PAUSED
       else g.stateManager.currentState) ∧
    (g.resumeGame throws).stateManager.currentState =
      (if g.stateManager.currentState = State.PAUSED then State.PLAYING
       else g.stateManager.currentState) ∧
    (∀ (dt : ℚ) (rnd : Draws),
      (g.update dt rnd throws).stateManager.currentState ≠ g.stateManager.currentState →
      g.stateManager.currentState = State.PLAYING ∧
      (g.update dt rnd throws).stateManager.currentState = State.GAME_OVER) ∧
    (∀ op : GameOp,
      (g.perform throws op).stateManager.currentState ≠ g.stateManager.currentState →
      (g.perform throws op).stateManager.currentState = State.START ∨
      (g.perform throws op).stateManager.currentState = State.PLAYING ∨
      (g.stateManager.currentState = State.PLAYING ∧
        ((g.perform throws op).stateManager.currentState = State.PAUSED ∨
         (g.perform throws op).stateManager.currentState = State.GAME_OVER))) := by
  refine ⟨loadAssetsOnComplete_currentState g throws, startGame_currentState g throws,
    resetGame_currentState g throws, pauseGame_currentState g throws,
    resumeGame_currentState g throws, fun dt rnd => update_changes_state g dt rnd throws, ?_⟩
  intro op hne
  cases op with
  | loadAssetsOnComplete => exact Or.inl (loadAssetsOnComplete_currentState g throws)
  | startGame => exact Or.inr (Or.inl (startGame_currentState g throws))
  | resetGame => exact Or.inr (Or.inl (resetGame_currentState g throws))
  | pauseGame =>
    simp only [FlappyBirdGame.perform, pauseGame_currentState] at hne ⊢
    split_ifs at hne ⊢ with h
    · exact Or.inr (Or.inr ⟨h, Or.inl rfl⟩)
    · exact absurd rfl hne
  | resumeGame =>
    simp only [FlappyBirdGame.perform, resumeGame_currentState] at hne ⊢
    split_ifs at hne ⊢ with h
    · exact Or.inr (Or.inl rfl)
    · exact absurd rfl hne
  | update dt rnd =>
    have h := update_changes_state g dt rnd throws hne
    exact Or.inr (Or.inr ⟨h.1, Or.inr h.2⟩)

/-! ### Frame time -/

theorem calculateFPS_lastTime (gl : GameLoop) (t : ℚ) :
    (gl.calculateFPS t).2.lastTime = gl.lastTime := by
  unfold GameLoop.calculateFPS
  simp only
  split_ifs <;> rfl

theorem loop_deltaTime (gl : GameLoop) (t : ℚ) :
    (gl.loop t).1.deltaTime = (t - (if gl.lastTime = 0 then t else gl.lastTime)) / 1000 ∧
    (gl.loop t).2.lastTime = t := by
  unfold GameLoop.loop
  simp only [calculateFPS_lastTime, and_self]

theorem deltas_two (gl : GameLoop) (t1 t2 : ℚ) (h1 : t1 ≠ 0) :
    gl.start.deltas [t1, t2] = [0, (t2 - t1) / 1000] := by
  simp only [GameLoop.deltas, loop_deltaTime, h1, if_false]
  simp [GameLoop.start]

/-- Counterexample to C27: no maximum bounds the `deltaTime` handed to the
update callback; frames at 1 s and 61 s after the time origin give
`deltaTime = 60` on the second tick. -/
theorem frame_gap_unbounded :
    GameLoop.initial.start.deltas [1000, 61000] = [0, 60] ∧
    ¬ ∃ M : ℚ, ∀ timestamps : List ℚ,
      ∀ dt ∈ GameLoop.initial.start.deltas timestamps, dt ≤ M := by
  constructor
  · rw [deltas_two _ _ _ (by norm_num)]
    norm_num
  · rintro ⟨M, hM⟩
    have h := hM [1000, 1000 + 1000 * (|M| + 1)] ((1000 + 1000 * (|M| + 1) - 1000) / 1000)
      (by rw [deltas_two _ _ _ (by norm_num)]; simp)
    have h2 : (1000 + 1000 * (|M| + 1) - 1000) / 1000 = |M| + 1 := by ring
    rw [h2] at h
    have := le_abs_self M
    linarith

/-- C27, amended.  The first tick after `start()` receives `deltaTime = 0`;
every later tick receives the whole gap to the previous frame,
`(timestamp - previous timestamp) / 1000`, with no maximum: for every `M` there
are two increasing frame timestamps whose second tick receives more than `M`
seconds; and the game tick hands the `deltaTime` it receives unchanged to
`Bird.update` and `PipeManager.update`. -/
theorem frame_time_unclamped (gl : GameLoop) :
    (∀ (t : ℚ) (rest : List ℚ),
      gl.start.deltas (t :: rest) = 0 :: (gl.start.loop t).2.deltas rest) ∧
    (∀ (l : GameLoop) (t : ℚ), l.lastTime ≠ 0 →
      (l.loop t).1.deltaTime = (t - l.lastTime) / 1000 ∧ (l.loop t).2.lastTime = t) ∧
    (∀ t1 t2 : ℚ, t1 ≠ 0 → gl.start.deltas [t1, t2] = [0, (t2 - t1) / 1000]) ∧
    (∀ M : ℚ, ∃ t1 t2 : ℚ, 0 < t1 ∧ t1 < t2 ∧
      gl.start.deltas [t1, t2] = [0, (t2 - t1) / 1000] ∧ M < (t2 - t1) / 1000) ∧
    (∀ (g : FlappyBirdGame) (dt : ℚ) (rnd : Draws),
      (g.updateBird dt).bird = g.bird.update dt ∧
      (g.updatePipes dt rnd).pipeManager = g.pipeManager.update dt rnd) := by
  refine ⟨?_, ?_, fun t1 t2 h1 => deltas_two gl t1 t2 h1, ?_, fun g dt rnd => ⟨rfl, rfl⟩⟩
  · intro t rest
    have h := (loop_deltaTime gl.start t).1
    have h0 : gl.start.lastTime = 0 := rfl
    rw [h0, if_pos rfl, sub_self, zero_div] at h
    simp only [GameLoop.deltas, h]
  · intro l t hl
    have h := loop_deltaTime l t
    rw [if_neg hl] at h
    exact h
  · intro M
    refine ⟨1000, 1000 + 1000 * (|M| + 1), by norm_num, ?_, deltas_two gl _ _ (by norm_num), ?_⟩
    · have := abs_nonneg M
      linarith
    · have h2 : (1000 + 1000 * (|M| + 1) - 1000) / 1000 = |M| + 1 := by ring
      rw [h2]
      have := le_abs_self M
      linarith

/-! ### Order of the live list -/

theorem createPipe_pipes (m : PipeManager) (rnd : Draws) :
    ∃ pipe : Pipe, (m.createPipe rnd).pipes = m.pipes ++ [pipe] ∧
      pipe.x = m.canvasWidth ∧ pipe.pipeNumber = m.pipeCount + 1 :=
  ⟨_, rfl, rfl, rfl⟩

theorem update_canvasWidth (m : PipeManager) (dt : ℚ) (rnd : Draws) :
    (m.update dt rnd).canvasWidth = m.canvasWidth ∧ (m.update dt rnd).pipeSpeed = m.pipeSpeed := by
  obtain ⟨pipes, timer, pipeCount, h⟩ := update_frame m dt rnd
  rw [h]
  exact ⟨rfl, rfl⟩

theorem spawnOrder_update (m : PipeManager) (dt : ℚ) (rnd : Draws)
    (h : List.Pairwise (fun a b : Pipe => a.pipeNumber < b.pipeNumber) m.pipes ∧
      ∀ p ∈ m.pipes, 1 ≤ p.pipeNumber ∧ p.pipeNumber ≤ m.pipeCount) :
    List.Pairwise (fun a b : Pipe => a.pipeNumber < b.pipeNumber) (m.update dt rnd).pipes ∧
      ∀ p ∈ (m.update dt rnd).pipes,
        1 ≤ p.pipeNumber ∧ p.pipeNumber ≤ (m.update dt rnd).pipeCount := by
  constructor
  · rw [update_pipes_eq]
    refine List.Pairwise.sublist (List.filter_sublist _) ?_
    refine List.Pairwise.map _ (fun a b hab => ?_)
      (?_ : List.Pairwise (fun a b : Pipe => a.pipeNumber < b.pipeNumber) _)
    · exact hab
    · split_ifs
      · obtain ⟨pipe, hp, _, hn⟩ := createPipe_pipes m rnd
        rw [hp, List.pairwise_append]
        refine ⟨h.1, List.pairwise_singleton _ _, ?_⟩
        intro a ha b hb
        rw [List.mem_singleton] at hb
        rw [hb, hn]
        have := (h.2 a ha).2
        omega
      · exact h.1
  · intro q hq
    rw [update_pipeCount]
    rcases mem_update_pipes m dt rnd q hq with ⟨p, hp, rfl⟩ | ⟨hs, hn, _⟩
    · have := h.2 p hp
      simp only [Pipe.update]
      split_ifs <;> omega
    · rw [if_pos hs, hn]
      omega

theorem checkScoring_pairwise (m : PipeManager) (b : Bounds) (R : ℚ → Nat → ℚ → Nat → Prop)
    (h : List.Pairwise (fun p q : Pipe => R p.x p.pipeNumber q.x q.pipeNumber) m.pipes) :
    List.Pairwise (fun p q : Pipe => R p.x p.pipeNumber q.x q.pipeNumber)
      (m.checkScoring b).2.pipes := by
  rw [checkScoring_pipes]
  refine List.Pairwise.map _ (fun p q hpq => ?_) h
  split_ifs <;> exact hpq

theorem spawnOrder_op (m : PipeManager) (o : ManagerOp)
    (h : List.Pairwise (fun a b : Pipe => a.pipeNumber < b.pipeNumber) m.pipes ∧
      ∀ p ∈ m.pipes, 1 ≤ p.pipeNumber ∧ p.pipeNumber ≤ m.pipeCount) :
    List.Pairwise (fun a b : Pipe => a.pipeNumber < b.pipeNumber) (m.op o).pipes ∧
      ∀ p ∈ (m.op o).pipes, 1 ≤ p.pipeNumber ∧ p.pipeNumber ≤ (m.op o).pipeCount := by
  cases o with
  | update dt rnd => exact spawnOrder_update m dt rnd h
  | checkScoring b =>
    refine ⟨checkScoring_pairwise m b (fun _ n _ k => n < k) h.1, ?_⟩
    intro q hq
    obtain ⟨p, hp, hn, _⟩ := mem_checkScoring_pipes m b q hq
    rw [hn]
    exact h.2 p hp
  | resize w hh => exact h
  | reset =>
    refine ⟨List.Pairwise.nil, ?_⟩
    intro p hp
    cases hp

theorem spawnOrder_ops (os : List ManagerOp) (m : PipeManager)
    (h : List.Pairwise (fun a b : Pipe => a.pipeNumber < b.pipeNumber) m.pipes ∧
      ∀ p ∈ m.pipes, 1 ≤ p.pipeNumber ∧ p.pipeNumber ≤ m.pipeCount) :
    List.Pairwise (fun a b : Pipe => a.pipeNumber < b.pipeNumber) (m.ops os).pipes ∧
      ∀ p ∈ (m.ops os).pipes, 1 ≤ p.pipeNumber ∧ p.pipeNumber ≤ (m.ops os).pipeCount := by
  induction os generalizing m with
  | nil => exact h
  | cons o rest ih => exact ih (m.op o) (spawnOrder_op m o h)

theorem pipeCount_ops (os : List ManagerOp) (m : PipeManager) :
    (m.ops os).pipeCount = PipeManager.spawned m m.pipeCount os := by
  induction os generalizing m with
  | nil => rfl
  | cons o rest ih =>
    cases o with
    | update dt rnd =>
      show ((m.update dt rnd).ops rest).pipeCount = _
      rw [ih, update_pipeCount]
      rfl
    | checkScoring b =>
      show ((m.checkScoring b).2.ops rest).pipeCount = _
      rw [ih]
      rfl
    | resize w h =>
      show ((m.resize w h).ops rest).pipeCount = _
      rw [ih]
      rfl
    | reset =>
      show (m.reset.ops rest).pipeCount = _
      rw [ih]
      rfl

theorem leftToRight_update (m : PipeManager) (dt : ℚ) (rnd : Draws) (hspeed : 0 ≤ m.pipeSpeed)
    (hdt : 0 ≤ dt)
    (h : List.Pairwise (fun a b : Pipe => a.x ≤ b.x) m.pipes ∧
      ∀ p ∈ m.pipes, p.x ≤ m.canvasWidth) :
    List.Pairwise (fun a b : Pipe => a.x ≤ b.x) (m.update dt rnd).pipes ∧
      ∀ p ∈ (m.update dt rnd).pipes, p.x ≤ (m.update dt rnd).canvasWidth := by
  have hmove : 0 ≤ m.pipeSpeed * dt := mul_nonneg hspeed hdt
  constructor
  · rw [update_pipes_eq]
    refine List.Pairwise.sublist (List.filter_sublist _) ?_
    refine List.Pairwise.map _ (fun a b hab => ?_)
      (?_ : List.Pairwise (fun a b : Pipe => a.x ≤ b.x) _)
    · simp only [Pipe.update]
      linarith
    · split_ifs
      · obtain ⟨pipe, hp, hx, _⟩ := createPipe_pipes m rnd
        rw [hp, List.pairwise_append]
        refine ⟨h.1, List.pairwise_singleton _ _, ?_⟩
        intro a ha b hb
        rw [List.mem_singleton] at hb
        rw [hb, hx]
        exact h.2 a ha
      · exact h.1
  · intro q hq
    rw [(update_canvasWidth m dt rnd).1]
    rw [update_pipes_eq] at hq
    obtain ⟨p, hp, rfl⟩ := List.mem_map.1 (List.mem_filter.1 hq).1
    have hpx : p.x ≤ m.canvasWidth := by
      split_ifs at hp
      · obtain ⟨pipe, hpp, hx, _⟩ := createPipe_pipes m rnd
        rw [hpp, List.mem_append, List.mem_singleton] at hp
        rcases hp with hp | hp
        · exact h.2 p hp
        · rw [hp, hx]
      · exact h.2 p hp
    simp only [Pipe.update]
    linarith

theorem leftToRight_ops (os : List ManagerOp) (m : PipeManager) (hspeed : 0 ≤ m.pipeSpeed)
    (hsteady : PipeManager.steady m os)
    (h : List.Pairwise (fun a b : Pipe => a.x ≤ b.x) m.pipes ∧
      ∀ p ∈ m.pipes, p.x ≤ m.canvasWidth) :
    List.Pairwise (fun a b : Pipe => a.x ≤ b.x) (m.ops os).pipes ∧
      ∀ p ∈ (m.ops os).pipes, p.x ≤ (m.ops os).canvasWidth := by
  induction os generalizing m with
  | nil => exact h
  | cons o rest ih =>
    cases o with
    | update dt rnd =>
      obtain ⟨hdt, hrest⟩ := hsteady
      refine ih (m.update dt rnd) ?_ hrest (leftToRight_update m dt rnd hspeed hdt h)
      rw [(update_canvasWidth m dt rnd).2]
      exact hspeed
    | checkScoring b =>
      refine ih (m.checkScoring b).2 hspeed hsteady
        ⟨checkScoring_pairwise m b (fun x _ y _ => x ≤ y) h.1, ?_⟩
      intro q hq
      obtain ⟨p, hp, _, hx, _⟩ := mem_checkScoring_pipes m b q hq
      rw [hx]
      exact h.2 p hp
    | resize w hh =>
      obtain ⟨hw, hrest⟩ := hsteady
      exact ih (m.resize w hh) hspeed hrest ⟨h.1, hw⟩
    | reset =>
      refine ih m.reset hspeed hsteady ⟨List.Pairwise.nil, ?_⟩
      intro p hp
      cases hp

/-- Counterexample to C28: after a tick of 1.5 s on an 800 px wide canvas, a
`resize` to 320 px and another tick of 1.5 s, the live list holds pipe 1 at
x = 260 followed by pipe 2 at x = 50: spawn order, not left-to-right order. -/
theorem resize_breaks_left_to_right :
    managerAfterShrink.pipes.map (fun p => p.pipeNumber) = [1, 2] ∧
    managerAfterShrink.pipes.map (fun p => p.x) = [260, 50] ∧
    ¬ List.Pairwise (fun a b : Pipe => a.x ≤ b.x) managerAfterShrink.pipes := by
  have hx : managerAfterShrink.pipes.map (fun p => p.x) = [260, 50] := by
    norm_num [managerAfterShrink, PipeManager.ops, PipeManager.op, PipeManager.update,
      PipeManager.resize, PipeManager.createPipe, PipeManager.new, orDefault, gamePipeConfig,
      midDraws, Pipe.new, Pipe.update, Pipe.isOffScreen]
  refine ⟨?_, hx, ?_⟩
  · norm_num [managerAfterShrink, PipeManager.ops, PipeManager.op, PipeManager.update,
      PipeManager.resize, PipeManager.createPipe, PipeManager.new, orDefault, gamePipeConfig,
      midDraws, Pipe.new, Pipe.update, Pipe.isOffScreen]
  · intro hp
    have hm : List.Pairwise (fun a b : ℚ => a ≤ b) (managerAfterShrink.pipes.map (fun p => p.x)) :=
      List.pairwise_map.2 hp
    rw [hx] at hm
    norm_num at hm

/-- C28, amended.  In every state reached from a manager with no pipes and
spawn counter 0 (a constructed or a reset one) by `update`, `checkScoring`,
`resize` and `reset` calls: the sequence numbers strictly increase along the
live list and lie between 1 and the spawn counter, the counter is the number of
pipes spawned since the last reset, and the next pipe spawned gets that number
plus one.  If moreover `pipeSpeed >= 0`, every `update` has `dt >= 0` and every
`resize` keeps the canvas at least as wide as the x of each live pipe, then x
is non-decreasing along the list and no live pipe is right of `canvasWidth`. -/
theorem live_list_order (m : PipeManager) (os : List ManagerOp)
    (hstart : m.pipes = [] ∧ m.pipeCount = 0) :
    List.Pairwise (fun a b : Pipe => a.pipeNumber < b.pipeNumber) (m.ops os).pipes ∧
    (∀ p ∈ (m.ops os).pipes, 1 ≤ p.pipeNumber ∧ p.pipeNumber ≤ (m.ops os).pipeCount) ∧
    (m.ops os).pipeCount = PipeManager.spawned m 0 os ∧
    (∀ rnd : Draws, ∃ pipe : Pipe,
      ((m.ops os).createPipe rnd).pipes = (m.ops os).pipes ++ [pipe] ∧
      pipe.pipeNumber = PipeManager.spawned m 0 os + 1) ∧
    (0 ≤ m.pipeSpeed → PipeManager.steady m os →
      List.Pairwise (fun a b : Pipe => a.x ≤ b.x) (m.ops os).pipes ∧
      ∀ p ∈ (m.ops os).pipes, p.x ≤ (m.ops os).canvasWidth) := by
  have hempty : ∀ p ∈ m.pipes, 1 ≤ p.pipeNumber ∧ p.pipeNumber ≤ m.pipeCount := by
    intro p hp
    rw [hstart.1] at hp
    cases hp
  have hpw : ∀ R : Pipe → Pipe → Prop, List.Pairwise R m.pipes := by
    intro R
    rw [hstart.1]
    exact List.Pairwise.nil
  have h1 := spawnOrder_ops os m ⟨hpw _, hempty⟩
  have hcount : (m.ops os).pipeCount = PipeManager.spawned m 0 os := by
    rw [pipeCount_ops, hstart.2]
  refine ⟨h1.1, h1.2, hcount, ?_, ?_⟩
  · intro rnd
    obtain ⟨pipe, hp, _, hn⟩ := createPipe_pipes (m.ops os) rnd
    exact ⟨pipe, hp, by rw [hn, hcount]⟩
  · intro hspeed hsteady
    refine leftToRight_ops os m hspeed hsteady ⟨hpw _, ?_⟩
    intro p hp
    rw [hstart.1] at hp
    cases hp

/-- Witness of C28, amended: the constructed game manager on an 800 by 1422
canvas over `widenedRun`. Pipe 1 spawns at x = 800 and is at x = 530 when the
canvas widens to 900; pipe 2 spawns at x = 900. The run ends with both pipes
live, pipe 1 at x = 260 and pipe 2 at x = 630, so both orders are stated of a
list of two pipes, and the widening is checked against a live pipe. -/
theorem live_list_order_witness :
    ((PipeManager.new 800 1422 50 gamePipeConfig 0).pipes = [] ∧
      (PipeManager.new 800 1422 50 gamePipeConfig 0).pipeCount = 0) ∧
    0 ≤ (PipeManager.new 800 1422 50 gamePipeConfig 0).pipeSpeed ∧
    PipeManager.steady (PipeManager.new 800 1422 50 gamePipeConfig 0) widenedRun ∧
    (((PipeManager.new 800 1422 50 gamePipeConfig 0).ops widenedRun).pipes.map
      (fun p => (p.pipeNumber, p.x)) = [(1, 260), (2, 630)]) ∧
    List.Pairwise (fun a b : Pipe => a.pipeNumber < b.pipeNumber)
      ((PipeManager.new 800 1422 50 gamePipeConfig 0).ops widenedRun).pipes ∧
    ((PipeManager.new 800 1422 50 gamePipeConfig 0).ops widenedRun).pipeCount = 2 ∧
    List.Pairwise (fun a b : Pipe => a.x ≤ b.x)
      ((PipeManager.new 800 1422 50 gamePipeConfig 0).ops widenedRun).pipes ∧
    (∀ p ∈ ((PipeManager.new 800 1422 50 gamePipeConfig 0).ops widenedRun).pipes,
      p.x ≤ ((PipeManager.new 800 1422 50 gamePipeConfig 0).ops widenedRun).canvasWidth) :=
  have hstart : (PipeManager.new 800 1422 50 gamePipeConfig 0).pipes = [] ∧
      (PipeManager.new 800 1422 50 gamePipeConfig 0).pipeCount = 0 := ⟨rfl, rfl⟩
  have hspeed : 0 ≤ (PipeManager.new 800 1422 50 gamePipeConfig 0).pipeSpeed := by
    norm_num [PipeManager.new, orDefault, gamePipeConfig]
  have hsteady : PipeManager.steady (PipeManager.new 800 1422 50 gamePipeConfig 0)
      widenedRun := by
    norm_num [widenedRun, PipeManager.steady, PipeManager.update, PipeManager.resize,
      PipeManager.checkScoring, PipeManager.checkScoringLoop, PipeManager.createPipe,
      PipeManager.new, orDefault, gamePipeConfig, midDraws, Pipe.new,
      Pipe.update, Pipe.isOffScreen, birdAt, Bird.getBounds, Bird.new, gameBirdConfig]
  have hlist : ((PipeManager.new 800 1422 50 gamePipeConfig 0).ops widenedRun).pipes.map
      (fun p => (p.pipeNumber, p.x)) = [(1, 260), (2, 630)] := by
    norm_num [widenedRun, PipeManager.ops, PipeManager.op, PipeManager.update,
      PipeManager.resize, PipeManager.checkScoring, PipeManager.checkScoringLoop,
      PipeManager.createPipe, PipeManager.new, orDefault, gamePipeConfig, midDraws,
      Pipe.new, Pipe.update, Pipe.isOffScreen, birdAt, Bird.getBounds, Bird.new,
      gameBirdConfig]
  have hcount : PipeManager.spawned (PipeManager.new 800 1422 50 gamePipeConfig 0) 0
      widenedRun = 2 := by
    norm_num [widenedRun, PipeManager.spawned, PipeManager.op, PipeManager.update,
      PipeManager.resize, PipeManager.checkScoring, PipeManager.checkScoringLoop,
      PipeManager.createPipe, PipeManager.new, orDefault, gamePipeConfig, midDraws,
      Pipe.new, Pipe.update, Pipe.isOffScreen, birdAt, Bird.getBounds, Bird.new,
      gameBirdConfig]
  have h := live_list_order (PipeManager.new 800 1422 50 gamePipeConfig 0) widenedRun hstart
  ⟨hstart, hspeed, hsteady, hlist, h.1, h.2.2.1.trans hcount,
    (h.2.2.2.2 hspeed hsteady).1, (h.2.2.2.2 hspeed hsteady).2⟩

end FlappyDuck
